import Mathlib

/-!
Verification of the temporal preprocessor and timezone conversion layer of the
gpt-parser repository (`src/utils/temporal_processor.py`,
`src/utils/timezone_converter.py`, `src/config/timezone_config.py`).

The Python code is shallowly embedded: Python `datetime` values are modelled to
minute precision as `Date`/`DateTime` records on the civil (Gregorian) calendar,
Python strings as Lean `String`, Python dicts with a fixed key set as structures
with `Option` fields (a `none` field is an absent key), and operations that can
raise (`dict[key]`, `int(...)`, `strptime`, `datetime.replace`) return
`Except PyErr`.  The external `dateparser.parse` library call is an abstract
parameter (an oracle function) of the embedding.  `zoneinfo` timezones for the
three IANA zones the configuration uses are modelled by their post-2007 United
States DST rules (second Sunday of March 02:00 local to first Sunday of
November 02:00 local), with PEP 495 fold=0 disambiguation for localization, and
with CPython's `datetime.astimezone` short circuit that returns `self` when the
target `tzinfo` object is identical (ZoneInfo instances are cached by key, so
two lookups of the same zone name yield the same object).
-/

namespace GptParser

/-! ## Civil calendar and minute-precision datetimes -/

/-- A civil (Gregorian) calendar date. -/
@[ext]
structure Date where
  year : Nat
  month : Nat
  day : Nat
deriving DecidableEq

/-- A wall-clock datetime at minute precision (Python `datetime` objects in the
code under study only ever carry zero seconds/microseconds on the paths we
model, apart from the live-clock default argument which the spec fixes). -/
@[ext]
structure DateTime where
  date : Date
  hour : Nat
  minute : Nat
deriving DecidableEq

/-- Gregorian leap-year rule. -/
def isLeap (y : Nat) : Bool :=
  (y % 4 == 0 && y % 100 != 0) || y % 400 == 0

/-- Number of days in a month of a given year. -/
def daysInMonth (y m : Nat) : Nat :=
  if m = 2 then (if isLeap y then 29 else 28)
  else if m = 4 ∨ m = 6 ∨ m = 9 ∨ m = 11 then 30
  else 31

/-- A date is valid when its fields denote an actual calendar day. -/
def Date.Valid (d : Date) : Prop :=
  1 ≤ d.year ∧ 1 ≤ d.month ∧ d.month ≤ 12 ∧ 1 ≤ d.day ∧ d.day ≤ daysInMonth d.year d.month

instance (d : Date) : Decidable d.Valid := by
  unfold Date.Valid
  exact inferInstance

/-- A datetime is valid when its date is and its time fields are in range. -/
def DateTime.Valid (dt : DateTime) : Prop :=
  dt.date.Valid ∧ dt.hour < 24 ∧ dt.minute < 60

instance (dt : DateTime) : Decidable dt.Valid := by
  unfold DateTime.Valid
  exact inferInstance

theorem daysInMonth_pos (y m : Nat) : 28 ≤ daysInMonth y m := by
  unfold daysInMonth
  split
  · split <;> omega
  · split <;> omega

theorem daysInMonth_le (y m : Nat) : daysInMonth y m ≤ 31 := by
  unfold daysInMonth
  split
  · split <;> omega
  · split <;> omega

/-- The calendar successor of a date. -/
def nextDay (d : Date) : Date :=
  if d.day < daysInMonth d.year d.month then ⟨d.year, d.month, d.day + 1⟩
  else if d.month < 12 then ⟨d.year, d.month + 1, 1⟩
  else ⟨d.year + 1, 1, 1⟩

/-- The calendar predecessor of a date. -/
def prevDay (d : Date) : Date :=
  if 1 < d.day then ⟨d.year, d.month, d.day - 1⟩
  else if 1 < d.month then ⟨d.year, d.month - 1, daysInMonth d.year (d.month - 1)⟩
  else ⟨d.year - 1, 12, 31⟩

theorem daysInMonth_twelve (y : Nat) : daysInMonth y 12 = 31 := by
  unfold daysInMonth
  norm_num

theorem nextDay_valid {d : Date} (h : d.Valid) : (nextDay d).Valid := by
  obtain ⟨h1, h2, h3, h4, h5⟩ := h
  have p0 := daysInMonth_pos d.year d.month
  have p1 := daysInMonth_pos d.year (d.month + 1)
  have p2 := daysInMonth_pos (d.year + 1) 1
  unfold nextDay
  split
  · simp only [Date.Valid]
    omega
  · split
    · simp only [Date.Valid]
      omega
    · simp only [Date.Valid]
      omega

theorem prevDay_valid {d : Date} (h : d.Valid) (hy : 2 ≤ d.year) : (prevDay d).Valid := by
  obtain ⟨h1, h2, h3, h4, h5⟩ := h
  have p0 := daysInMonth_pos d.year (d.month - 1)
  have h12 := daysInMonth_twelve (d.year - 1)
  unfold prevDay
  split
  · simp only [Date.Valid]
    omega
  · split
    · simp only [Date.Valid]
      omega
    · simp only [Date.Valid]
      omega

theorem prevDay_nextDay {d : Date} (h : d.Valid) : prevDay (nextDay d) = d := by
  obtain ⟨h1, h2, h3, h4, h5⟩ := h
  unfold nextDay
  split
  · simp only [prevDay]
    rw [if_pos (by omega)]
    ext <;> simp <;> omega
  · split
    · simp only [prevDay]
      rw [if_neg (by omega), if_pos (by omega)]
      ext <;> simp <;> omega
    · simp only [prevDay]
      rw [if_neg (by omega), if_neg (by omega)]
      have h31 : daysInMonth d.year d.month = 31 := by
        have hm : d.month = 12 := by omega
        rw [hm]
        exact daysInMonth_twelve d.year
      ext <;> simp <;> omega

theorem nextDay_prevDay {d : Date} (h : d.Valid) (hy : 2 ≤ d.year) :
    nextDay (prevDay d) = d := by
  obtain ⟨h1, h2, h3, h4, h5⟩ := h
  unfold prevDay
  split
  · simp only [nextDay]
    rw [if_pos (by omega)]
    ext <;> simp <;> omega
  · split
    · simp only [nextDay]
      rw [if_neg (by omega), if_pos (by omega)]
      ext <;> simp <;> omega
    · simp only [nextDay]
      have h12 := daysInMonth_twelve (d.year - 1)
      rw [if_neg (by omega), if_neg (by omega)]
      ext <;> simp <;> omega

/-- Iterate the day successor. -/
def nextDayIter : Nat → Date → Date
  | 0, d => d
  | n + 1, d => nextDayIter n (nextDay d)

/-- Iterate the day predecessor. -/
def prevDayIter : Nat → Date → Date
  | 0, d => d
  | n + 1, d => prevDayIter n (prevDay d)

/-- Shift a date by a signed number of days (Python `timedelta(days=k)`). -/
def addDays (d : Date) (k : Int) : Date :=
  if 0 ≤ k then nextDayIter k.toNat d else prevDayIter (-k).toNat d

theorem addDays_zero (d : Date) : addDays d 0 = d := rfl

theorem addDays_one (d : Date) : addDays d 1 = nextDay d := rfl

theorem addDays_neg_one (d : Date) : addDays d (-1) = prevDay d := rfl

theorem nextDay_year (d : Date) :
    (nextDay d).year = d.year ∨ (nextDay d).year = d.year + 1 := by
  unfold nextDay
  split
  · left; rfl
  · split
    · left; rfl
    · right; rfl

theorem prevDay_year (d : Date) :
    (prevDay d).year = d.year ∨ (prevDay d).year = d.year - 1 := by
  unfold prevDay
  split
  · left; rfl
  · split
    · left; rfl
    · right; rfl

theorem addDays_small_valid {d : Date} {k : Int} (hv : d.Valid) (hy : 2 ≤ d.year)
    (hk : k = -1 ∨ k = 0 ∨ k = 1) :
    (addDays d k).Valid ∧ d.year - 1 ≤ (addDays d k).year ∧ (addDays d k).year ≤ d.year + 1 := by
  rcases hk with h | h | h <;> subst h
  · rw [addDays_neg_one]
    rcases prevDay_year d with hp | hp <;>
      exact ⟨prevDay_valid hv hy, by omega, by omega⟩
  · rw [addDays_zero]
    exact ⟨hv, by omega, by omega⟩
  · rw [addDays_one]
    rcases nextDay_year d with hp | hp <;>
      exact ⟨nextDay_valid hv, by omega, by omega⟩

theorem addDays_cancel_small {d : Date} {k : Int} (hv : d.Valid) (hy : 2 ≤ d.year)
    (hk : k = -1 ∨ k = 0 ∨ k = 1) : addDays (addDays d k) (-k) = d := by
  rcases hk with h | h | h <;> subst h
  · rw [show -(-1 : Int) = 1 by norm_num, addDays_neg_one, addDays_one]
    exact nextDay_prevDay hv hy
  · rw [show -(0 : Int) = 0 by norm_num, addDays_zero, addDays_zero]
  · rw [addDays_one, show -(1 : Int) = -1 by norm_num, addDays_neg_one]
    exact prevDay_nextDay hv

/-- Shift a wall-clock datetime by a signed number of minutes (Python
`datetime` plus/minus a `timedelta`, to minute precision). -/
def addMin (dt : DateTime) (delta : Int) : DateTime :=
  let t : Int := (dt.hour : Int) * 60 + (dt.minute : Int) + delta
  { date := addDays dt.date (t / 1440),
    hour := ((t % 1440) / 60).toNat,
    minute := ((t % 1440) % 60).toNat }

theorem addMin_parts (dt : DateTime) (delta : Int) :
    (addMin dt delta).date
        = addDays dt.date (((dt.hour : Int) * 60 + (dt.minute : Int) + delta) / 1440) ∧
    ((addMin dt delta).hour : Int)
        = (((dt.hour : Int) * 60 + (dt.minute : Int) + delta) % 1440) / 60 ∧
    ((addMin dt delta).minute : Int)
        = (((dt.hour : Int) * 60 + (dt.minute : Int) + delta) % 1440) % 60 := by
  refine ⟨rfl, ?_, ?_⟩ <;> simp only [addMin] <;> omega

theorem addMin_zero (dt : DateTime) (hh : dt.hour < 24) (hm : dt.minute < 60) :
    addMin dt 0 = dt := by
  obtain ⟨e1, e2, e3⟩ := addMin_parts dt 0
  refine DateTime.ext ?_ ?_ ?_
  · rw [e1]
    have hk : ((dt.hour : Int) * 60 + (dt.minute : Int) + 0) / 1440 = 0 := by omega
    rw [hk, addDays_zero]
  · omega
  · omega

theorem addMin_valid {dt : DateTime} {delta : Int} (hv : dt.date.Valid)
    (hy : 2 ≤ dt.date.year) (hh : dt.hour < 24) (hm : dt.minute < 60)
    (hd1 : -1440 < delta) (hd2 : delta < 1440) :
    (addMin dt delta).date.Valid ∧ (addMin dt delta).hour < 24 ∧ (addMin dt delta).minute < 60 ∧
    dt.date.year - 1 ≤ (addMin dt delta).date.year ∧
    (addMin dt delta).date.year ≤ dt.date.year + 1 := by
  obtain ⟨e1, e2, e3⟩ := addMin_parts dt delta
  have hk : ((dt.hour : Int) * 60 + (dt.minute : Int) + delta) / 1440 = -1 ∨
      ((dt.hour : Int) * 60 + (dt.minute : Int) + delta) / 1440 = 0 ∨
      ((dt.hour : Int) * 60 + (dt.minute : Int) + delta) / 1440 = 1 := by omega
  obtain ⟨q1, q2, q3⟩ := addDays_small_valid hv hy hk
  rw [e1] at *
  exact ⟨q1, by omega, by omega, q2, q3⟩

theorem addMin_cancel {dt : DateTime} {delta : Int} (hv : dt.date.Valid)
    (hy : 2 ≤ dt.date.year) (hh : dt.hour < 24) (hm : dt.minute < 60)
    (hd1 : -1440 < delta) (hd2 : delta < 1440) :
    addMin (addMin dt delta) (-delta) = dt := by
  obtain ⟨e1, e2, e3⟩ := addMin_parts dt delta
  obtain ⟨f1, f2, f3⟩ := addMin_parts (addMin dt delta) (-delta)
  have hk : ((dt.hour : Int) * 60 + (dt.minute : Int) + delta) / 1440 = -1 ∨
      ((dt.hour : Int) * 60 + (dt.minute : Int) + delta) / 1440 = 0 ∨
      ((dt.hour : Int) * 60 + (dt.minute : Int) + delta) / 1440 = 1 := by omega
  refine DateTime.ext ?_ ?_ ?_
  · rw [f1, e1]
    have hK2 : (((addMin dt delta).hour : Int) * 60 + ((addMin dt delta).minute : Int) + -delta) / 1440
        = -(((dt.hour : Int) * 60 + (dt.minute : Int) + delta) / 1440) := by omega
    rw [hK2]
    exact addDays_cancel_small hv hy hk
  · omega
  · omega

/-! ## Strings: `strftime`, `strptime`, `int(...)`, `str.split` models -/

/-- Errors raised by the modelled Python operations. -/
inductive PyErr where
  | keyError (key : String)
  | valueError
deriving DecidableEq

instance {ε α : Type} [DecidableEq ε] [DecidableEq α] : DecidableEq (Except ε α) := fun a b =>
  match a, b with
  | .ok x, .ok y => if h : x = y then .isTrue (by rw [h]) else .isFalse (by simp [h])
  | .error x, .error y => if h : x = y then .isTrue (by rw [h]) else .isFalse (by simp [h])
  | .ok _, .error _ => .isFalse (by simp)
  | .error _, .ok _ => .isFalse (by simp)

/-- The decimal digit character for `n % 10`. -/
def digitChar (n : Nat) : Char := Char.ofNat (48 + n % 10)

theorem digitChar_val (n : Nat) : (digitChar n).toNat = 48 + n % 10 := by
  unfold digitChar
  have h : n % 10 < 10 := Nat.mod_lt _ (by norm_num)
  revert h
  generalize n % 10 = k
  intro h
  interval_cases k <;> rfl

theorem digitChar_isDigit (n : Nat) : (digitChar n).isDigit = true := by
  unfold digitChar
  have h : n % 10 < 10 := Nat.mod_lt _ (by norm_num)
  revert h
  generalize n % 10 = k
  intro h
  interval_cases k <;> rfl

theorem digitChar_ne_colon (n : Nat) : digitChar n ≠ ':' := by
  unfold digitChar
  have h : n % 10 < 10 := Nat.mod_lt _ (by norm_num)
  revert h
  generalize n % 10 = k
  intro h
  interval_cases k <;> decide

theorem digitChar_ne_dash (n : Nat) : digitChar n ≠ '-' := by
  unfold digitChar
  have h : n % 10 < 10 := Nat.mod_lt _ (by norm_num)
  revert h
  generalize n % 10 = k
  intro h
  interval_cases k <;> decide

/-- Two-digit zero-padded decimal rendering (`strftime` `%H`, `%M`, `%m`, `%d`). -/
def pad2 (n : Nat) : String := ⟨[digitChar (n / 10), digitChar n]⟩

/-- Four-digit zero-padded decimal rendering (`strftime` `%Y` for years below 10000). -/
def pad4 (n : Nat) : String :=
  ⟨[digitChar (n / 1000), digitChar (n / 100), digitChar (n / 10), digitChar n]⟩

/-- `strftime("%Y-%m-%d")`. -/
def renderDate (d : Date) : String :=
  pad4 d.year ++ "-" ++ pad2 d.month ++ "-" ++ pad2 d.day

/-- `strftime("%H:%M")`. -/
def renderTime (h m : Nat) : String := pad2 h ++ ":" ++ pad2 m

/-- Value of a digit list read as a decimal numeral. -/
def natFromDigits (l : List Char) : Nat :=
  l.foldl (fun acc c => acc * 10 + (c.toNat - 48)) 0

/-- Python `int(s)` restricted to plain digit strings: anything else raises
`ValueError`.  (Python also accepts signs and surrounding whitespace, which
never occur on the modelled call sites' success paths.) -/
def parseNatPy (s : String) : Except PyErr Nat :=
  if s.data ≠ [] ∧ s.data.all Char.isDigit then .ok (natFromDigits s.data) else .error .valueError

/-- Python `str.split(sep)` on character lists. -/
def pySplitAux (sep : Char) : List Char → List Char → List (List Char)
  | [], acc => [acc.reverse]
  | c :: rest, acc =>
    if c = sep then acc.reverse :: pySplitAux sep rest []
    else pySplitAux sep rest (c :: acc)

/-- Python `str.split(sep)` for a single-character separator. -/
def pySplit (sep : Char) (s : String) : List String :=
  (pySplitAux sep s.data []).map String.mk

theorem pySplitAux_no_sep {sep : Char} {l : List Char} (acc : List Char) (h : sep ∉ l) :
    pySplitAux sep l acc = [acc.reverse ++ l] := by
  induction l generalizing acc with
  | nil => simp [pySplitAux]
  | cons c rest ih =>
    have hc : c ≠ sep := by
      intro he
      exact h (by simp [he])
    have hr : sep ∉ rest := by
      intro he
      exact h (by simp [he])
    simp only [pySplitAux]
    rw [if_neg hc, ih (c :: acc) hr]
    simp

theorem pySplitAux_append {sep : Char} {l1 l2 : List Char} (acc : List Char) (h : sep ∉ l1) :
    pySplitAux sep (l1 ++ sep :: l2) acc = (acc.reverse ++ l1) :: pySplitAux sep l2 [] := by
  induction l1 generalizing acc with
  | nil =>
    simp only [List.nil_append, pySplitAux, if_pos rfl]
    simp
  | cons c rest ih =>
    have hc : c ≠ sep := by
      intro he
      exact h (by simp [he])
    have hr : sep ∉ rest := by
      intro he
      exact h (by simp [he])
    rw [List.cons_append]
    simp only [pySplitAux]
    rw [if_neg hc, ih (c :: acc) hr]
    simp

/-- `hour, minute = map(int, time_str.split(":"))`: exactly two colon-separated
integer fields, anything else raises `ValueError` (from `int(...)` or from the
tuple unpacking). -/
def parseHM (s : String) : Except PyErr (Nat × Nat) :=
  match pySplit ':' s with
  | [a, b] =>
    match parseNatPy a, parseNatPy b with
    | .ok h, .ok m => .ok (h, m)
    | _, _ => .error .valueError
  | _ => .error .valueError

/-- `datetime.strptime(s, "%Y-%m-%d")`: three dash-separated integer fields
denoting a real calendar date, else `ValueError`. -/
def strptimeDate (s : String) : Except PyErr Date :=
  match pySplit '-' s with
  | [ys, ms, ds] =>
    match parseNatPy ys, parseNatPy ms, parseNatPy ds with
    | .ok y, .ok m, .ok d =>
      if 1 ≤ y ∧ y ≤ 9999 ∧ 1 ≤ m ∧ m ≤ 12 ∧ 1 ≤ d ∧ d ≤ daysInMonth y m
      then .ok ⟨y, m, d⟩ else .error .valueError
    | _, _, _ => .error .valueError
  | _ => .error .valueError

theorem parseNatPy_pad2 {n : Nat} (h : n < 100) : parseNatPy (pad2 n) = .ok n := by
  unfold parseNatPy pad2
  rw [if_pos]
  · refine congrArg Except.ok ?_
    have d1 := digitChar_val (n / 10)
    have d2 := digitChar_val n
    simp only [natFromDigits, List.foldl]
    omega
  · refine ⟨by simp, ?_⟩
    simp [digitChar_isDigit]

theorem parseNatPy_pad4 {n : Nat} (h : n < 10000) : parseNatPy (pad4 n) = .ok n := by
  unfold parseNatPy pad4
  rw [if_pos]
  · refine congrArg Except.ok ?_
    have d1 := digitChar_val (n / 1000)
    have d2 := digitChar_val (n / 100)
    have d3 := digitChar_val (n / 10)
    have d4 := digitChar_val n
    simp only [natFromDigits, List.foldl]
    omega
  · refine ⟨by simp, ?_⟩
    simp [digitChar_isDigit]

theorem digitChars_no_colon {L : List Char} (hL : ∀ c ∈ L, ∃ k, c = digitChar k) :
    ':' ∉ L := by
  intro hmem
  obtain ⟨k, hk⟩ := hL _ hmem
  exact digitChar_ne_colon k hk.symm

theorem digitChars_no_dash {L : List Char} (hL : ∀ c ∈ L, ∃ k, c = digitChar k) :
    '-' ∉ L := by
  intro hmem
  obtain ⟨k, hk⟩ := hL _ hmem
  exact digitChar_ne_dash k hk.symm

theorem parseHM_renderTime {h m : Nat} (hh : h < 100) (hm : m < 100) :
    parseHM (renderTime h m) = .ok (h, m) := by
  have hsplit : pySplit ':' (renderTime h m) = [pad2 h, pad2 m] := by
    unfold pySplit renderTime
    have hdata : (pad2 h ++ ":" ++ pad2 m).data
        = [digitChar (h / 10), digitChar h] ++ ':' :: [digitChar (m / 10), digitChar m] := by
      simp [pad2, String.data_append]
    rw [hdata]
    rw [pySplitAux_append [] (digitChars_no_colon (by
      intro c hc
      simp at hc
      rcases hc with he | he <;> exact ⟨_, he⟩))]
    rw [pySplitAux_no_sep [] (digitChars_no_colon (by
      intro c hc
      simp at hc
      rcases hc with he | he <;> exact ⟨_, he⟩))]
    simp [pad2]
  unfold parseHM
  rw [hsplit]
  simp only [parseNatPy_pad2 hh, parseNatPy_pad2 hm]

theorem strptimeDate_renderDate {d : Date} (hv : d.Valid) (h1 : 1000 ≤ d.year)
    (h2 : d.year ≤ 9999) : strptimeDate (renderDate d) = .ok d := by
  obtain ⟨q1, q2, q3, q4, q5⟩ := hv
  have q6 := daysInMonth_le d.year d.month
  have hsplit : pySplit '-' (renderDate d) = [pad4 d.year, pad2 d.month, pad2 d.day] := by
    unfold pySplit renderDate
    have hdata : (pad4 d.year ++ "-" ++ pad2 d.month ++ "-" ++ pad2 d.day).data
        = [digitChar (d.year / 1000), digitChar (d.year / 100), digitChar (d.year / 10),
            digitChar d.year]
          ++ '-' :: ([digitChar (d.month / 10), digitChar d.month]
          ++ '-' :: [digitChar (d.day / 10), digitChar d.day]) := by
      simp [pad4, pad2, String.data_append]
    rw [hdata]
    rw [pySplitAux_append [] (digitChars_no_dash (by
      intro c hc
      simp at hc
      rcases hc with he | he | he | he <;> exact ⟨_, he⟩))]
    rw [pySplitAux_append [] (digitChars_no_dash (by
      intro c hc
      simp at hc
      rcases hc with he | he <;> exact ⟨_, he⟩))]
    rw [pySplitAux_no_sep [] (digitChars_no_dash (by
      intro c hc
      simp at hc
      rcases hc with he | he <;> exact ⟨_, he⟩))]
    simp [pad4, pad2]
  unfold strptimeDate
  rw [hsplit]
  simp only [parseNatPy_pad4 (by omega : d.year < 10000),
    parseNatPy_pad2 (by omega : d.month < 100), parseNatPy_pad2 (by omega : d.day < 100)]
  rw [if_pos (by exact ⟨by omega, by omega, q2, q3, q4, q5⟩)]

theorem renderTime_ne_empty (h m : Nat) : renderTime h m ≠ "" := by
  intro he
  have hd := congrArg String.data he
  simp [renderTime, pad2, String.data_append] at hd

/-! ## Timezones: a model of `zoneinfo` for the three configured IANA zones -/

/-- Day of week with Sunday = 0, by Sakamoto's method. -/
def sakamotoTable : List Nat := [0, 3, 2, 5, 0, 3, 5, 1, 4, 6, 2, 4]

/-- Day of week with Sunday = 0. -/
def dowSunday0 (y m d : Nat) : Nat :=
  let yy := if m < 3 then y - 1 else y
  (yy + yy / 4 - yy / 100 + yy / 400 + sakamotoTable.getD (m - 1) 0 + d) % 7

/-- Python `datetime.weekday()`: Monday = 0 through Sunday = 6. -/
def weekdayPy (d : Date) : Nat := (dowSunday0 d.year d.month d.day + 6) % 7

/-- The three IANA zones appearing in `USER_TIMEZONES` / `DEFAULT_TIMEZONE`.
Because `zoneinfo.ZoneInfo` caches instances by key, two lookups of the same
key return the identical object; a `Zone` value models that canonical cached
instance. -/
inductive Zone where
  | losAngeles
  | chicago
  | utc
deriving DecidableEq

/-- `str(ZoneInfo(...))`, which prints the IANA key. -/
def Zone.key : Zone → String
  | .losAngeles => "America/Los_Angeles"
  | .chicago => "America/Chicago"
  | .utc => "UTC"

/-- Standard-time UTC offset in minutes. -/
def Zone.stdOffset : Zone → Int
  | .losAngeles => -480
  | .chicago => -360
  | .utc => 0

/-- Daylight-saving UTC offset in minutes. -/
def Zone.dstOffset : Zone → Int
  | .losAngeles => -420
  | .chicago => -300
  | .utc => 0

/-- Days in months `1..m` of year `y`. -/
def daysBefore (y : Nat) : Nat → Nat
  | 0 => 0
  | m + 1 => daysBefore y m + daysInMonth y (m + 1)

/-- Ordinal day of the year (January 1st is 1). -/
def dayOfYear (y m d : Nat) : Nat := daysBefore y (m - 1) + d

/-- Minute of the year of a wall-clock datetime. -/
def minuteOfYear (dt : DateTime) : Int :=
  ((dayOfYear dt.date.year dt.date.month dt.date.day - 1) * 1440
    + dt.hour * 60 + dt.minute : Nat)

/-- Day of month of the first Sunday of month `m` in year `y`. -/
def firstSundayDay (y m : Nat) : Nat := 1 + (7 - dowSunday0 y m 1) % 7

/-- United States DST (post-2007) starts the second Sunday of March. -/
def dstStartDay (y : Nat) : Nat := firstSundayDay y 3 + 7

/-- United States DST (post-2007) ends the first Sunday of November. -/
def dstEndDay (y : Nat) : Nat := firstSundayDay y 11

/-- Minute of the year at which DST starts, as a local wall-clock instant
(02:00 standard time on the second Sunday of March). -/
def dstStartLocalMin (y : Nat) : Int :=
  ((dayOfYear y 3 (dstStartDay y) - 1) * 1440 + 120 : Nat)

/-- Minute of the year at which DST ends, as a local wall-clock instant
(02:00 daylight time on the first Sunday of November). -/
def dstEndLocalMin (y : Nat) : Int :=
  ((dayOfYear y 11 (dstEndDay y) - 1) * 1440 + 120 : Nat)

/-- Whether a local wall-clock datetime is interpreted as daylight time when a
zone is attached with `replace(tzinfo=...)` and fold = 0 (PEP 495): wall
clocks from 03:00 on the spring-forward day (exclusive of the skipped
02:00-02:59 gap, which takes the pre-transition standard offset) up to but not
including 02:00 on the fall-back day (the repeated 01:00-01:59 hour takes its
first, daylight reading). -/
def isDstLocal (z : Zone) (dt : DateTime) : Bool :=
  match z with
  | .utc => false
  | _ =>
    let t := minuteOfYear dt
    decide (dstStartLocalMin dt.date.year + 60 ≤ t ∧ t < dstEndLocalMin dt.date.year)

/-- Whether an absolute instant, given by its UTC wall clock, falls in the DST
period of a zone. -/
def isDstInstant (z : Zone) (utcWall : DateTime) : Bool :=
  match z with
  | .utc => false
  | _ =>
    let t := minuteOfYear utcWall
    decide (dstStartLocalMin utcWall.date.year - z.stdOffset ≤ t ∧
      t < dstEndLocalMin utcWall.date.year - z.dstOffset)

/-- UTC offset used when attaching a zone to a naive local wall clock. -/
def utcoffsetLocal (z : Zone) (dt : DateTime) : Int :=
  if isDstLocal z dt then z.dstOffset else z.stdOffset

/-- UTC offset in effect at an absolute instant (given by its UTC wall clock). -/
def utcoffsetInstant (z : Zone) (dt : DateTime) : Int :=
  if isDstInstant z dt then z.dstOffset else z.stdOffset

/-- `dt.replace(tzinfo=fromZ).astimezone(toZ)` on wall clock `dt`: CPython
returns `self` unchanged when the target tzinfo object is identical (which,
with cached `ZoneInfo` instances, is exactly when the two zone keys agree);
otherwise it converts through UTC, using each zone's offset in effect at the
moment in question. -/
def astimezone (fromZ toZ : Zone) (dt : DateTime) : DateTime :=
  if toZ = fromZ then dt
  else
    let utc := addMin dt (-(utcoffsetLocal fromZ dt))
    addMin utc (utcoffsetInstant toZ utc)

theorem utcoffsetLocal_bounds (z : Zone) (dt : DateTime) :
    -1440 < utcoffsetLocal z dt ∧ utcoffsetLocal z dt < 1440 := by
  cases z <;> unfold utcoffsetLocal <;> split <;> decide

theorem utcoffsetInstant_bounds (z : Zone) (dt : DateTime) :
    -1440 < utcoffsetInstant z dt ∧ utcoffsetInstant z dt < 1440 := by
  cases z <;> unfold utcoffsetInstant <;> split <;> decide

/-! ## `src/config/timezone_config.py` -/

/-- `USER_TIMEZONES`: canonical username to IANA timezone name. -/
def USER_TIMEZONES : List (String × String) :=
  [("Colin", "America/Los_Angeles"),
   ("Joel", "America/Chicago"),
   ("Bryan", "America/Chicago")]

/-- `TELEGRAM_USER_MAPPING`: chat-platform identifier to canonical name. -/
def TELEGRAM_USER_MAPPING : List (String × String) :=
  [("colin aulds | 10netzero.com", "Colin"),
   ("Colin_10NetZero", "Colin")]

/-- `DEFAULT_TIMEZONE`. -/
def DEFAULT_TIMEZONE : String := "UTC"

/-- ASCII lowercase of one character, as Python `str.lower` acts on the ASCII
strings in play. -/
def pyLowerChar (c : Char) : Char :=
  if 65 ≤ c.toNat ∧ c.toNat ≤ 90 then Char.ofNat (c.toNat + 32) else c

/-- Python `str.lower()` (ASCII range). -/
def pyLower (s : String) : String := ⟨s.data.map pyLowerChar⟩

/-- `normalize_username`: exact Telegram-mapping hit, else case-insensitive
Telegram-mapping hit, else case-insensitive hit on the canonical roster, else
the input unchanged. -/
def normalize_username (username : String) : String :=
  match TELEGRAM_USER_MAPPING.find? (fun p => p.1 == username) with
  | some p => p.2
  | none =>
    match TELEGRAM_USER_MAPPING.find? (fun p => pyLower p.1 == pyLower username) with
    | some p => p.2
    | none =>
      match USER_TIMEZONES.find? (fun p => pyLower p.1 == pyLower username) with
      | some p => p.1
      | none => username

/-- `ZoneInfo(name)` for the names reachable from the configuration. -/
def zoneOfName (name : String) : Zone :=
  if name = "America/Los_Angeles" then .losAngeles
  else if name = "America/Chicago" then .chicago
  else .utc

/-- `get_user_timezone`: normalize, look up the roster, default to UTC. -/
def get_user_timezone (username : String) : Zone :=
  zoneOfName (((USER_TIMEZONES.find? (fun p => p.1 == normalize_username username)).map
    Prod.snd).getD DEFAULT_TIMEZONE)

/-! ## `src/utils/timezone_converter.py` -/

/-- The `timezone_info` record the converter writes onto the task
(`times_are_in` present only on the explicit-timezone branch). -/
structure TimezoneInfo where
  times_are_in : Option String
  assigner_tz : String
  assignee_tz : String
  converted : Bool
deriving DecidableEq

/-- The keys of the parsed-task dict that `process_task_with_timezones` reads
or writes; `extra` stands for every other key, which the function never
touches (a `none` field is an absent key). -/
structure TaskJson where
  assignee : Option String
  timezone_context : Option String
  due_date : Option String
  due_time : Option String
  reminder_date : Option String
  reminder_time : Option String
  timezone_info : Option TimezoneInfo
  extra : List (String × String)
deriving DecidableEq

/-- Python truthiness of an optional string (`None` and `""` are falsy). -/
def strTruthy : Option String → Bool
  | none => false
  | some s => s ≠ ""

/-- `datetime.replace(hour=..., minute=...)`: raises `ValueError` out of range. -/
def pyReplaceTime (dt : DateTime) (h m : Nat) : Except PyErr DateTime :=
  if h ≤ 23 ∧ m ≤ 59 then .ok { dt with hour := h, minute := m } else .error .valueError

/-- `convert_time_between_users(dt, time_str, from_user, to_user, is_date_only)`:
look up both users' zones, and when a (truthy) time string is supplied and the
call is not date-only, parse it, attach `from_user`'s zone to the wall clock,
re-express the instant in `to_user`'s zone and render date and time; otherwise
return the date as-is with an empty time string. -/
def convert_time_between_users (dt : DateTime) (time_str : Option String)
    (from_user to_user : String) (is_date_only : Bool := false) :
    Except PyErr (String × String) :=
  let from_tz := get_user_timezone from_user
  let to_tz := get_user_timezone to_user
  if strTruthy time_str && !is_date_only then do
    let hm ← parseHM (time_str.getD "")
    let dt_with_time ← pyReplaceTime dt hm.1 hm.2
    let dt_to := astimezone from_tz to_tz dt_with_time
    .ok (renderDate dt_to.date, renderTime dt_to.hour dt_to.minute)
  else
    .ok (renderDate dt.date, "")

/-- `process_task_with_timezones(task_json, assigner)`: decide whether to
convert the task's due/reminder fields from the assigner's zone to the
assignee's, and record the decision in `timezone_info`. -/
def process_task_with_timezones (task_json : TaskJson) (assigner : String := "Colin") :
    Except PyErr TaskJson :=
  let assigner_tz := get_user_timezone assigner
  let assignee := task_json.assignee.getD assigner
  let assignee_tz := get_user_timezone assignee
  let timezone_context := task_json.timezone_context.getD "assigner_local"
  if timezone_context ≠ "assigner_local" then
    .ok { task_json with
      timezone_info := some ⟨some timezone_context, assigner_tz.key, assignee_tz.key, false⟩ }
  else
    let assigner_normalized := normalize_username assigner
    let assignee_normalized := normalize_username assignee
    if assigner_normalized = assignee_normalized then
      .ok { task_json with
        timezone_info := some ⟨none, assigner_tz.key, assignee_tz.key, false⟩ }
    else do
      let dd ← match task_json.due_date with
        | some s => Except.ok s
        | none => Except.error (.keyError "due_date")
      let base_date ← strptimeDate dd
      let due_time := task_json.due_time.getD ""
      let task1 ←
        if due_time ≠ "" ∧ assigner_normalized ≠ assignee_normalized then do
          let r ← convert_time_between_users ⟨base_date, 0, 0⟩ (some due_time)
            assigner assignee
          Except.ok { task_json with due_date := some r.1, due_time := some r.2 }
        else Except.ok task_json
      let task2 ←
        match task1.reminder_date, task1.reminder_time with
        | some rd, some rt =>
          if rd ≠ "" ∧ rt ≠ "" ∧ assigner_normalized ≠ assignee_normalized then do
            let reminder_base ← strptimeDate rd
            let r ← convert_time_between_users ⟨reminder_base, 0, 0⟩ (some rt)
              assigner assignee
            Except.ok { task1 with reminder_date := some r.1, reminder_time := some r.2 }
          else Except.ok task1
        | _, _ => Except.ok task1
      .ok { task2 with
        timezone_info := some ⟨none, assigner_tz.key, assignee_tz.key, true⟩ }

/-! ## Helper lemmas about the converter -/

theorem normalize_username_cases (u : String) :
    normalize_username u = "Colin" ∨ normalize_username u = "Joel" ∨
    normalize_username u = "Bryan" ∨ normalize_username u = u := by
  unfold normalize_username
  split
  case _ p hp =>
    have hm := List.mem_of_find?_eq_some hp
    simp only [TELEGRAM_USER_MAPPING, List.mem_cons, List.not_mem_nil, or_false] at hm
    rcases hm with h | h <;> simp [h]
  case _ =>
    split
    case _ p hp =>
      have hm := List.mem_of_find?_eq_some hp
      simp only [TELEGRAM_USER_MAPPING, List.mem_cons, List.not_mem_nil, or_false] at hm
      rcases hm with h | h <;> simp [h]
    case _ =>
      split
      case _ p hp =>
        have hm := List.mem_of_find?_eq_some hp
        simp only [USER_TIMEZONES, List.mem_cons, List.not_mem_nil, or_false] at hm
        rcases hm with h | h | h <;> simp [h]
      case _ => simp

theorem normalize_username_colin : normalize_username "Colin" = "Colin" := by decide

theorem normalize_username_joel : normalize_username "Joel" = "Joel" := by decide

theorem normalize_username_bryan : normalize_username "Bryan" = "Bryan" := by decide

theorem normalize_username_idem (u : String) :
    normalize_username (normalize_username u) = normalize_username u := by
  rcases normalize_username_cases u with h | h | h | h
  · rw [h, normalize_username_colin]
  · rw [h, normalize_username_joel]
  · rw [h, normalize_username_bryan]
  · rw [h]
    exact h

theorem get_user_timezone_normalize (u : String) :
    get_user_timezone u = get_user_timezone (normalize_username u) := by
  unfold get_user_timezone
  rw [normalize_username_idem]

theorem get_user_timezone_eq_of_normalize {u v : String}
    (h : normalize_username u = normalize_username v) :
    get_user_timezone u = get_user_timezone v := by
  unfold get_user_timezone
  rw [h]

theorem processTask_context_ok (task : TaskJson) (assigner c : String)
    (hc : task.timezone_context = some c) (hne : c ≠ "assigner_local") :
    process_task_with_timezones task assigner
      = .ok { task with
          timezone_info := some ⟨some c, (get_user_timezone assigner).key,
            (get_user_timezone (task.assignee.getD assigner)).key, false⟩ } := by
  simp only [process_task_with_timezones, hc, Option.getD_some]
  rw [if_pos hne]

theorem processTask_samePerson_ok (task : TaskJson) (assigner : String)
    (hc : task.timezone_context.getD "assigner_local" = "assigner_local")
    (hsame : normalize_username assigner = normalize_username (task.assignee.getD assigner)) :
    process_task_with_timezones task assigner
      = .ok { task with
          timezone_info := some ⟨none, (get_user_timezone assigner).key,
            (get_user_timezone (task.assignee.getD assigner)).key, false⟩ } := by
  simp only [process_task_with_timezones]
  rw [if_neg (show ¬ task.timezone_context.getD "assigner_local" ≠ "assigner_local"
    from fun hn => hn hc)]
  rw [if_pos hsame]

theorem processTask_missing_due_date (task : TaskJson) (assigner : String)
    (hc : task.timezone_context.getD "assigner_local" = "assigner_local")
    (hdiff : normalize_username assigner ≠ normalize_username (task.assignee.getD assigner))
    (hdd : task.due_date = none) :
    process_task_with_timezones task assigner = .error (.keyError "due_date") := by
  simp only [process_task_with_timezones, hdd]
  rw [if_neg (show ¬ task.timezone_context.getD "assigner_local" ≠ "assigner_local"
    from fun hn => hn hc)]
  rw [if_neg hdiff]
  rfl

theorem except_bind_ok {α β : Type} (a : α) (f : α → Except PyErr β) :
    (Except.ok a >>= f) = f a := rfl

theorem convert_time_ok (d : Date) (h m : Nat) (u v : String) (hh : h < 24) (hm : m < 60) :
    convert_time_between_users ⟨d, 0, 0⟩ (some (renderTime h m)) u v
      = .ok (renderDate (astimezone (get_user_timezone u) (get_user_timezone v) ⟨d, h, m⟩).date,
          renderTime (astimezone (get_user_timezone u) (get_user_timezone v) ⟨d, h, m⟩).hour
            (astimezone (get_user_timezone u) (get_user_timezone v) ⟨d, h, m⟩).minute) := by
  have hne := renderTime_ne_empty h m
  have hparse : parseHM (renderTime h m) = .ok (h, m) :=
    parseHM_renderTime (by omega) (by omega)
  have hrep : pyReplaceTime ⟨d, 0, 0⟩ h m = .ok ⟨d, h, m⟩ := by
    unfold pyReplaceTime
    rw [if_pos (by omega)]
  simp only [convert_time_between_users, strTruthy, Option.getD_some]
  rw [if_pos (by simp [hne])]
  rw [hparse, except_bind_ok]
  simp only []
  rw [hrep, except_bind_ok]

theorem astimezone_valid {zA zB : Zone} {dt : DateTime} (hv : dt.date.Valid)
    (hy : 3 ≤ dt.date.year) (hh : dt.hour < 24) (hm : dt.minute < 60) :
    (astimezone zA zB dt).date.Valid ∧ (astimezone zA zB dt).hour < 24 ∧
    (astimezone zA zB dt).minute < 60 ∧
    dt.date.year - 2 ≤ (astimezone zA zB dt).date.year ∧
    (astimezone zA zB dt).date.year ≤ dt.date.year + 2 := by
  simp only [astimezone]
  split
  · exact ⟨hv, hh, hm, by omega, by omega⟩
  · obtain ⟨b1, b2⟩ := utcoffsetLocal_bounds zA dt
    obtain ⟨q1, q2, q3, q4, q5⟩ :=
      @addMin_valid dt (-(utcoffsetLocal zA dt)) hv (by omega) hh hm (by omega) (by omega)
    obtain ⟨c1, c2⟩ := utcoffsetInstant_bounds zB (addMin dt (-(utcoffsetLocal zA dt)))
    obtain ⟨r1, r2, r3, r4, r5⟩ :=
      @addMin_valid (addMin dt (-(utcoffsetLocal zA dt)))
        (utcoffsetInstant zB (addMin dt (-(utcoffsetLocal zA dt))))
        q1 (by omega) q2 q3 (by omega) (by omega)
    exact ⟨r1, r2, r3, by omega, by omega⟩

theorem astimezone_roundtrip {zA zB : Zone} {dt : DateTime} (hv : dt.date.Valid)
    (hy : 3 ≤ dt.date.year) (hh : dt.hour < 24) (hm : dt.minute < 60)
    (H1 : utcoffsetLocal zA dt
        = utcoffsetInstant zA (addMin dt (-(utcoffsetLocal zA dt))))
    (H2 : utcoffsetLocal zB (astimezone zA zB dt)
        = utcoffsetInstant zB (addMin dt (-(utcoffsetLocal zA dt)))) :
    astimezone zB zA (astimezone zA zB dt) = dt := by
  by_cases hz : zB = zA
  · subst hz
    unfold astimezone
    simp
  · have hz2 : ¬ zA = zB := fun he => hz he.symm
    obtain ⟨b1, b2⟩ := utcoffsetLocal_bounds zA dt
    obtain ⟨iv1, iv2, iv3, iv4, iv5⟩ :=
      @addMin_valid dt (-(utcoffsetLocal zA dt)) hv (by omega) hh hm (by omega) (by omega)
    obtain ⟨c1, c2⟩ :=
      utcoffsetInstant_bounds zB (addMin dt (-(utcoffsetLocal zA dt)))
    have hw2 : astimezone zA zB dt
        = addMin (addMin dt (-(utcoffsetLocal zA dt)))
            (utcoffsetInstant zB (addMin dt (-(utcoffsetLocal zA dt)))) := by
      simp only [astimezone]
      rw [if_neg hz]
    rw [hw2] at H2
    rw [hw2]
    simp only [astimezone]
    rw [if_neg hz2]
    rw [H2]
    rw [addMin_cancel iv1 (by omega) iv2 iv3 (by omega) (by omega)]
    rw [← H1]
    have hfin := addMin_cancel hv (by omega : 2 ≤ dt.date.year) hh hm
      (by omega : -1440 < -(utcoffsetLocal zA dt)) (by omega)
    rw [neg_neg] at hfin
    exact hfin

/-! ## Claims about the timezone converter and user configuration -/

/-- Concrete tasks used in witnesses and counterexamples. -/
def taskColinToJoel : TaskJson :=
  { assignee := some "Joel", timezone_context := none, due_date := some "2025-07-10",
    due_time := some "16:00", reminder_date := none, reminder_time := none,
    timezone_info := none, extra := [] }

/-- A task carrying an explicit (non-sentinel) timezone context. -/
def taskWithContext : TaskJson := { taskColinToJoel with timezone_context := some "CST" }

/-- A task on the conversion path with no `due_date` key. -/
def taskNoDueDate : TaskJson := { taskColinToJoel with due_date := none }

/-- A task on the conversion path with a malformed `due_time`. -/
def taskBadTime : TaskJson := { taskColinToJoel with due_time := some "4pm" }

/-- C6: whenever `timezone_context` is present and differs from the sentinel
`"assigner_local"`, `process_task_with_timezones` performs no conversion
regardless of assigner/assignee identity: `due_date`, `due_time`,
`reminder_date` and `reminder_time` are returned unchanged, and the only
modification to the task is setting `timezone_info` to
`{times_are_in := timezone_context, assigner_tz, assignee_tz, converted := false}`. -/
theorem c6_explicit_context_frame (task : TaskJson) (assigner c : String)
    (hc : task.timezone_context = some c) (hne : c ≠ "assigner_local") :
    process_task_with_timezones task assigner
      = .ok { task with
          timezone_info := some ⟨some c, (get_user_timezone assigner).key,
            (get_user_timezone (task.assignee.getD assigner)).key, false⟩ } :=
  processTask_context_ok task assigner c hc hne

/-- Witness for C6 at a concrete task with `timezone_context = "CST"`. -/
theorem c6_explicit_context_frame_witness :
    process_task_with_timezones taskWithContext "Colin"
      = .ok { taskWithContext with
          timezone_info := some ⟨some "CST", "America/Los_Angeles", "America/Chicago", false⟩ } :=
  c6_explicit_context_frame taskWithContext "Colin" "CST" rfl (by decide)

/-- C7: when assigner and assignee normalize to the same canonical username
(and the explicit-timezone row of the decision table does not apply first),
`process_task_with_timezones` leaves the temporal fields unchanged and records
`timezone_info = {assigner_tz, assignee_tz, converted := false}`; likewise
`convert_time_between_users` with `from_user` and `to_user` normalizing alike
is a no-op on the date and the (canonically rendered) time. -/
theorem c7_same_person_noop :
    (∀ (task : TaskJson) (assigner : String),
        task.timezone_context.getD "assigner_local" = "assigner_local" →
        normalize_username assigner = normalize_username (task.assignee.getD assigner) →
        process_task_with_timezones task assigner
          = .ok { task with
              timezone_info := some ⟨none, (get_user_timezone assigner).key,
                (get_user_timezone (task.assignee.getD assigner)).key, false⟩ }) ∧
    (∀ (d : Date) (h m : Nat) (u v : String), h < 24 → m < 60 →
        normalize_username u = normalize_username v →
        convert_time_between_users ⟨d, 0, 0⟩ (some (renderTime h m)) u v
          = .ok (renderDate d, renderTime h m)) := by
  constructor
  · intro task assigner hc hsame
    exact processTask_samePerson_ok task assigner hc hsame
  · intro d h m u v hh hm huv
    have hz : get_user_timezone u = get_user_timezone v :=
      get_user_timezone_eq_of_normalize huv
    have hconv := convert_time_ok d h m u v hh hm
    rw [hz] at hconv
    have hid : astimezone (get_user_timezone v) (get_user_timezone v) ⟨d, h, m⟩
        = ⟨d, h, m⟩ := by
      unfold astimezone
      rw [if_pos rfl]
    rw [hid] at hconv
    exact hconv

/-- Witness for C7: `"Colin"` assigning to `"colin"` converts nothing. -/
theorem c7_same_person_noop_witness :
    process_task_with_timezones { taskColinToJoel with assignee := some "colin" } "Colin"
      = .ok { { taskColinToJoel with assignee := some "colin" } with
          timezone_info := some ⟨none, "America/Los_Angeles", "America/Los_Angeles", false⟩ } ∧
    convert_time_between_users ⟨⟨2025, 7, 10⟩, 0, 0⟩ (some (renderTime 16 0)) "Colin" "colin"
      = .ok (renderDate ⟨2025, 7, 10⟩, renderTime 16 0) :=
  ⟨c7_same_person_noop.1 { taskColinToJoel with assignee := some "colin" } "Colin"
      (by decide) (by decide),
   c7_same_person_noop.2 ⟨2025, 7, 10⟩ 16 0 "Colin" "colin" (by decide) (by decide) (by decide)⟩

/-- C4 counterexample: the subsystem does raise for input-driven conditions:
with the conversion path reached, a task missing the `due_date` key raises
`KeyError`, and a malformed `due_time` string raises `ValueError`. -/
theorem c4_counterexample_converter_raises :
    process_task_with_timezones taskNoDueDate "Colin" = .error (.keyError "due_date") ∧
    process_task_with_timezones taskBadTime "Colin" = .error .valueError := by
  constructor
  · decide
  · decide

/-- C4 amended: `preprocess` never raises (it is a total function in this
embedding), and `process_task_with_timezones` returns normally on both
no-conversion branches; but on the conversion path a missing `due_date` key
raises `KeyError` (and malformed time strings raise `ValueError`). -/
theorem c4_amended_error_behavior :
    (∀ (task : TaskJson) (assigner c : String),
        task.timezone_context = some c → c ≠ "assigner_local" →
        ∃ t, process_task_with_timezones task assigner = .ok t) ∧
    (∀ (task : TaskJson) (assigner : String),
        task.timezone_context.getD "assigner_local" = "assigner_local" →
        normalize_username assigner = normalize_username (task.assignee.getD assigner) →
        ∃ t, process_task_with_timezones task assigner = .ok t) ∧
    (∀ (task : TaskJson) (assigner : String),
        task.timezone_context.getD "assigner_local" = "assigner_local" →
        normalize_username assigner ≠ normalize_username (task.assignee.getD assigner) →
        task.due_date = none →
        process_task_with_timezones task assigner = .error (.keyError "due_date")) := by
  refine ⟨?_, ?_, ?_⟩
  · intro task assigner c hc hne
    exact ⟨_, processTask_context_ok task assigner c hc hne⟩
  · intro task assigner hc hsame
    exact ⟨_, processTask_samePerson_ok task assigner hc hsame⟩
  · intro task assigner hc hdiff hdd
    exact processTask_missing_due_date task assigner hc hdiff hdd

/-- Witness for the amended C4 at concrete tasks. -/
theorem c4_amended_error_behavior_witness :
    (∃ t, process_task_with_timezones taskWithContext "Colin" = .ok t) ∧
    process_task_with_timezones taskNoDueDate "Colin" = .error (.keyError "due_date") :=
  ⟨c4_amended_error_behavior.1 taskWithContext "Colin" "CST" rfl (by decide),
   c4_amended_error_behavior.2.2 taskNoDueDate "Colin" (by decide) (by decide) rfl⟩

/-- C10: `normalize_username` is idempotent, and `get_user_timezone` gives the
same zone on a raw username as on its normalization. -/
theorem c10_normalize_username_idempotent (s : String) :
    normalize_username (normalize_username s) = normalize_username s ∧
    get_user_timezone s = get_user_timezone (normalize_username s) :=
  ⟨normalize_username_idem s, get_user_timezone_normalize s⟩

/-- C5: converting a wall-clock date and time from user `A` to user `B` and
then converting the result back from `B` to `A` returns the original date and
time, provided neither localization lands on a DST transition: `H1` says the
original wall clock is a canonical (unambiguous, existing) reading of its
instant in `A`'s zone, `H2` the same for the converted wall clock in `B`'s
zone.  Both conversions use the offset in effect at the instant in question
(`utcoffsetLocal`/`utcoffsetInstant` depend on the date), not a fixed offset. -/
theorem c5_convert_roundtrip (wall : DateTime) (A B : String)
    (hv : wall.date.Valid) (hy1 : 1002 ≤ wall.date.year) (hy2 : wall.date.year ≤ 9997)
    (hh : wall.hour < 24) (hm : wall.minute < 60)
    (H1 : utcoffsetLocal (get_user_timezone A) wall
        = utcoffsetInstant (get_user_timezone A)
            (addMin wall (-(utcoffsetLocal (get_user_timezone A) wall))))
    (H2 : utcoffsetLocal (get_user_timezone B)
            (astimezone (get_user_timezone A) (get_user_timezone B) wall)
        = utcoffsetInstant (get_user_timezone B)
            (addMin wall (-(utcoffsetLocal (get_user_timezone A) wall)))) :
    convert_time_between_users ⟨wall.date, 0, 0⟩ (some (renderTime wall.hour wall.minute)) A B
      = .ok (renderDate (astimezone (get_user_timezone A) (get_user_timezone B) wall).date,
          renderTime (astimezone (get_user_timezone A) (get_user_timezone B) wall).hour
            (astimezone (get_user_timezone A) (get_user_timezone B) wall).minute)
    ∧ strptimeDate (renderDate (astimezone (get_user_timezone A) (get_user_timezone B) wall).date)
        = .ok (astimezone (get_user_timezone A) (get_user_timezone B) wall).date
    ∧ convert_time_between_users
        ⟨(astimezone (get_user_timezone A) (get_user_timezone B) wall).date, 0, 0⟩
        (some (renderTime (astimezone (get_user_timezone A) (get_user_timezone B) wall).hour
          (astimezone (get_user_timezone A) (get_user_timezone B) wall).minute)) B A
      = .ok (renderDate wall.date, renderTime wall.hour wall.minute) := by
  obtain ⟨w1, w2h, w3, w4, w5⟩ :=
    @astimezone_valid (get_user_timezone A) (get_user_timezone B) wall hv (by omega) hh hm
  have hback := astimezone_roundtrip hv (by omega) hh hm H1 H2
  refine ⟨?_, ?_, ?_⟩
  · have hleg := convert_time_ok wall.date wall.hour wall.minute A B hh hm
    rw [show (⟨wall.date, wall.hour, wall.minute⟩ : DateTime) = wall from rfl] at hleg
    exact hleg
  · exact strptimeDate_renderDate w1 (by omega) (by omega)
  · have hleg := convert_time_ok
      (astimezone (get_user_timezone A) (get_user_timezone B) wall).date
      (astimezone (get_user_timezone A) (get_user_timezone B) wall).hour
      (astimezone (get_user_timezone A) (get_user_timezone B) wall).minute
      B A w2h w3
    rw [show (⟨(astimezone (get_user_timezone A) (get_user_timezone B) wall).date,
        (astimezone (get_user_timezone A) (get_user_timezone B) wall).hour,
        (astimezone (get_user_timezone A) (get_user_timezone B) wall).minute⟩ : DateTime)
      = astimezone (get_user_timezone A) (get_user_timezone B) wall from rfl] at hleg
    rw [hback] at hleg
    exact hleg

/-- Witness for C5: Colin (America/Los_Angeles) to Joel (America/Chicago) on
2025-07-10, 16:00 converts to 18:00 and converts back to 16:00. -/
theorem c5_convert_roundtrip_witness :
    convert_time_between_users ⟨⟨2025, 7, 10⟩, 0, 0⟩ (some "16:00") "Colin" "Joel"
      = .ok ("2025-07-10", "18:00") ∧
    convert_time_between_users ⟨⟨2025, 7, 10⟩, 0, 0⟩ (some "18:00") "Joel" "Colin"
      = .ok ("2025-07-10", "16:00") := by
  have h := c5_convert_roundtrip ⟨⟨2025, 7, 10⟩, 16, 0⟩ "Colin" "Joel" (by decide) (by decide)
    (by decide) (by decide) (by decide) (by decide) (by decide)
  exact ⟨h.1, h.2.2⟩

/-! ## A small regular-expression engine

The temporal processor is driven by `re.search` / `re.sub` over a fixed table
of patterns.  The engine below interprets an abstract syntax of exactly the
constructs those patterns use (case-insensitive and case-sensitive literals,
character classes, sequencing, alternation, greedy and lazy repetition, greedy
option, one capturing group, word boundaries) with Python's leftmost-match,
backtracking semantics: alternation prefers its left branch, greedy repetition
prefers consuming more, lazy repetition prefers consuming less. -/

inductive RE where
  | eps
  | lit (c : Char)
  | litCS (c : Char)
  | cls (p : Char → Bool)
  | seq (a b : RE)
  | alt (a b : RE)
  | star (a : RE)
  | lazyStar (a : RE)
  | opt (a : RE)
  | group (a : RE)
  | wordB

/-- Structural size of a pattern, used to budget the matcher's fuel. -/
def RE.size : RE → Nat
  | .eps => 1
  | .lit _ => 1
  | .litCS _ => 1
  | .cls _ => 1
  | .seq a b => a.size + b.size + 1
  | .alt a b => a.size + b.size + 1
  | .star a => a.size + 1
  | .lazyStar a => a.size + 1
  | .opt a => a.size + 1
  | .group a => a.size + 1
  | .wordB => 1

/-- Python `\w`. -/
def isWordChar (c : Char) : Bool := c.isAlphanum || c = '_'

/-- Python `\s` over the character repertoire in play. -/
def isSpaceChar (c : Char) : Bool := c = ' ' || c = '\t' || c = '\n' || c = '\r'

/-- Python `\b`: exactly one of the neighbouring characters is a word char. -/
def wordBoundary (prev : Option Char) (s : List Char) : Bool :=
  let pw := match prev with
    | none => false
    | some c => isWordChar c
  let nw := match s with
    | [] => false
    | x :: _ => isWordChar x
  pw != nw

/-- Backtracking matcher in continuation-passing style.  The continuation
receives the rest of the input, the character just before it, and the capture
of the (sole) group if one has completed.  `fuel` strictly decreases at every
recursive call; `matchFuel` below is enough for the patterns at hand because
every repetition body consumes at least one character. -/
def mrun : Nat → RE → List Char → Option Char → Option (List Char) →
    (List Char → Option Char → Option (List Char) →
      Option (List Char × Option (List Char))) →
    Option (List Char × Option (List Char))
  | 0, _, _, _, _, _ => none
  | fuel + 1, re, s, prev, cap, k =>
    match re with
    | .eps => k s prev cap
    | .lit c =>
      match s with
      | [] => none
      | x :: rest => if pyLowerChar x = pyLowerChar c then k rest (some x) cap else none
    | .litCS c =>
      match s with
      | [] => none
      | x :: rest => if x = c then k rest (some x) cap else none
    | .cls p =>
      match s with
      | [] => none
      | x :: rest => if p x then k rest (some x) cap else none
    | .seq a b => mrun fuel a s prev cap (fun s1 p1 c1 => mrun fuel b s1 p1 c1 k)
    | .alt a b =>
      match mrun fuel a s prev cap k with
      | some r => some r
      | none => mrun fuel b s prev cap k
    | .star a =>
      match mrun fuel a s prev cap (fun s1 p1 c1 =>
          if s1.length < s.length then mrun fuel (.star a) s1 p1 c1 k else none) with
      | some r => some r
      | none => k s prev cap
    | .lazyStar a =>
      match k s prev cap with
      | some r => some r
      | none =>
        mrun fuel a s prev cap (fun s1 p1 c1 =>
          if s1.length < s.length then mrun fuel (.lazyStar a) s1 p1 c1 k else none)
    | .opt a =>
      match mrun fuel a s prev cap k with
      | some r => some r
      | none => k s prev cap
    | .group a =>
      mrun fuel a s prev cap (fun s1 p1 _ =>
        k s1 p1 (some (s.take (s.length - s1.length))))
    | .wordB => if wordBoundary prev s then k s prev cap else none

/-- Fuel bound: at most one pattern traversal per consumed character. -/
def matchFuel (re : RE) (s : List Char) : Nat := (s.length + 2) * (re.size + 2) + 2

/-- Result of a successful `re.search`. -/
structure SearchMatch where
  start : Nat
  length : Nat
  matched : List Char
  cap : Option (List Char)
deriving DecidableEq

/-- Try to match at each position from left to right (`re.search`). -/
def searchAux (re : RE) (s : List Char) (prev : Option Char) (i : Nat) :
    Option SearchMatch :=
  match mrun (matchFuel re s) re s prev none (fun s1 _ c1 => some (s1, c1)) with
  | some (rest, cap) =>
    some ⟨i, s.length - rest.length, s.take (s.length - rest.length), cap⟩
  | none =>
    match s with
    | [] => none
    | x :: rest => searchAux re rest (some x) (i + 1)

/-- `re.search(pattern, s)`. -/
def reSearch (re : RE) (s : String) : Option SearchMatch := searchAux re s.data none 0

/-- `re.sub(pattern, repl, s)`: replace every non-overlapping occurrence,
scanning left to right.  (The patterns in play never match the empty string;
a zero-width match is skipped over to keep the recursion well founded.)
Structural recursion on fuel, which `reSubAux` sets to an amount sufficient
because every step consumes at least one input character. -/
def reSubAuxF : Nat → RE → List Char → List Char → Option Char → List Char
  | 0, _, _, s, _ => s
  | fuel + 1, re, repl, s, prev =>
    match mrun (matchFuel re s) re s prev none (fun s1 _ c1 => some (s1, c1)) with
    | some (rest, _) =>
      if s.length - rest.length = 0 then
        match s with
        | [] => repl
        | x :: xs => x :: reSubAuxF fuel re repl xs (some x)
      else
        repl ++ reSubAuxF fuel re repl (s.drop (s.length - rest.length))
          (some ((s.take (s.length - rest.length)).getLastD ' '))
    | none =>
      match s with
      | [] => []
      | x :: xs => x :: reSubAuxF fuel re repl xs (some x)

/-- `re.sub` scanning with sufficient fuel. -/
def reSubAux (re : RE) (repl : List Char) (s : List Char) (prev : Option Char) :
    List Char :=
  reSubAuxF (s.length + 1) re repl s prev

/-- `re.sub` on strings. -/
def reSubAll (re : RE) (repl : String) (s : String) : String :=
  ⟨reSubAux re repl.data s.data none⟩

/-- Python `str.strip()`. -/
def pyStrip (s : String) : String :=
  ⟨((s.data.dropWhile isSpaceChar).reverse.dropWhile isSpaceChar).reverse⟩

/-- Does `pat` occur as a prefix of the list? -/
def listStartsWith : List Char → List Char → Bool
  | [], _ => true
  | _ :: _, [] => false
  | a :: as, b :: bs => a = b && listStartsWith as bs

/-- Python `str.replace(old, new)` (all occurrences, case-sensitive), for a
non-empty `old`: structural recursion on fuel, every step consuming at least
one input character. -/
def listReplaceF : Nat → List Char → List Char → List Char → List Char
  | 0, _, _, l => l
  | fuel + 1, old, new, l =>
    match l with
    | [] => []
    | x :: xs =>
      if old ≠ [] ∧ listStartsWith old (x :: xs) then
        new ++ listReplaceF fuel old new ((x :: xs).drop old.length)
      else x :: listReplaceF fuel old new xs

/-- `str.replace` scanning with sufficient fuel. -/
def listReplace (old new l : List Char) : List Char :=
  listReplaceF (l.length + 1) old new l

/-- Python `str.replace` on strings. -/
def pyReplace (s old new : String) : String := ⟨listReplace old.data new.data s.data⟩

/-- ASCII uppercase of one character (`str.upper`). -/
def pyUpperChar (c : Char) : Char :=
  if 97 ≤ c.toNat ∧ c.toNat ≤ 122 then Char.ofNat (c.toNat - 32) else c

/-- Python `str.upper()` (ASCII range). -/
def pyUpper (s : String) : String := ⟨s.data.map pyUpperChar⟩

/-! ## `src/utils/temporal_processor.py`: pattern tables -/

/-- Concatenate a list of patterns. -/
def rcat : List RE → RE
  | [] => .eps
  | [r] => r
  | r :: rs => .seq r (rcat rs)

/-- Case-insensitive literal string. -/
def rstr (s : String) : RE := rcat (s.data.map RE.lit)

/-- Case-sensitive literal string. -/
def rstrCS (s : String) : RE := rcat (s.data.map RE.litCS)

/-- Left-biased alternation of a non-empty list. -/
def raltL : List RE → RE
  | [] => .cls (fun _ => false)
  | [r] => r
  | r :: rs => .alt r (raltL rs)

/-- One or more repetitions (greedy). -/
def rplus (r : RE) : RE := .seq r (.star r)

/-- Character-class shorthands. -/
def rdigit : RE := .cls Char.isDigit

/-- Pattern `\w`. -/
def rword : RE := .cls isWordChar

/-- Pattern `\s`. -/
def rspace : RE := .cls isSpaceChar

/-- Pattern `\d{1,2}`. -/
def d12 : RE := .seq rdigit (.opt rdigit)

/-- Pattern `(?::\d{2})`. -/
def colonMM : RE := rcat [.lit ':', rdigit, rdigit]

/-- Pattern `(?:am|pm)`. -/
def ampm : RE := .alt (rstr "am") (rstr "pm")

/-- Pattern `.` (any character but a newline). -/
def anyCharNoNL : RE := .cls (fun c => c ≠ '\n')

/-- `r"\b(CST|CDT|PST|PDT|EST|EDT|MST|MDT)\b"` (searched with `re.IGNORECASE`). -/
def tzAbbrevRE : RE :=
  rcat [.wordB,
    .group (raltL [rstr "cst", rstr "cdt", rstr "pst", rstr "pdt",
      rstr "est", rstr "edt", rstr "mst", rstr "mdt"]),
    .wordB]

/-- `self.city_to_tz` in source order. -/
def city_to_tz : List (String × String) :=
  [("houston", "CST"), ("chicago", "CST"), ("dallas", "CST"), ("austin", "CST"),
   ("la", "PST"), ("los angeles", "PST"), ("san francisco", "PST"), ("seattle", "PST"),
   ("new york", "EST"), ("nyc", "EST"), ("boston", "EST"), ("miami", "EST")]

/-- `rf"\b{city}\s+time\b"`. -/
def cityRE (city : String) : RE :=
  rcat [.wordB, rstr city, rplus rspace, rstr "time", .wordB]

/-- `r"end of (?:the )?hour"`. -/
def endOfHourRE : RE := rcat [rstr "end of ", .opt (rstr "the "), rstr "hour"]

/-- `r"top of (?:the )?hour"`. -/
def topOfHourRE : RE := rcat [rstr "top of ", .opt (rstr "the "), rstr "hour"]

/-- `r"end of (?:the )?day"`. -/
def endOfDayRE : RE := rcat [rstr "end of ", .opt (rstr "the "), rstr "day"]

/-- `r"end of tonight"`. -/
def endOfTonightRE : RE := rstr "end of tonight"

/-- `r"(?:this )?weekend"`. -/
def weekendRE : RE := .seq (.opt (rstr "this ")) (rstr "weekend")

/-- `date_patterns` of `_extract_time_parts`, in source order. -/
def date_patterns : List RE :=
  [rstr "tomorrow",
   rstr "today",
   rstr "yesterday",
   .seq (rstr "next ") (rplus rword),
   .seq (rstr "this ") (rplus rword),
   .seq (rstr "on ") (rplus rword),
   rcat [d12, .lit '/', d12],
   rcat [rplus rword, .lit ' ', d12,
     .opt (raltL [rstr "st", rstr "nd", rstr "rd", rstr "th"])]]

/-- `time_patterns` of `_extract_time_parts`, in source order. -/
def time_patterns : List RE :=
  [rcat [rstr "at ", d12, .opt colonMM, .star rspace, .opt ampm],
   rcat [d12, .opt colonMM, .star rspace, ampm],
   rcat [raltL [rstr "before", rstr "after"], .lit ' ', rplus rword],
   rcat [d12, .star rspace,
     raltL [.seq (rstr "hour") (.opt (.lit 's')), .seq (rstr "minute") (.opt (.lit 's'))],
     .star rspace,
     raltL [rstr "before", rstr "after", rstr "from now"]]]

/-- The captured time shape `(\d{1,2}(?::\d{2})?\s*(?:am|pm)?)`. -/
def timeGroupRE : RE := rcat [d12, .opt colonMM, .star rspace, .opt ampm]

/-- `reminder_patterns` of `_extract_time_parts`, in source order; each has one
capturing group. -/
def reminder_patterns : List RE :=
  [rcat [rstr "remind", rplus rspace, rplus rword, rplus rspace,
     .opt (.seq (rstr "at") (rplus rspace)), .group timeGroupRE],
   rcat [.group timeGroupRE, rplus rspace, rstr "reminder"],
   rcat [rstr "remind", .lazyStar anyCharNoNL, .group (rplus rdigit),
     .star rspace, rstr "minute", .opt (.lit 's'), .star rspace, rstr "before"]]

/-- `r"(\d+)\s*minutes?\s*before"` as re-checked inside `_parse_with_dateparser`
(searched without `re.IGNORECASE`, hence case-sensitive literals). -/
def beforeMinutesRE : RE :=
  rcat [.group (rplus rdigit), .star rspace, rstrCS "minute", .opt (.litCS 's'),
    .star rspace, rstrCS "before"]

/-! ## `src/utils/temporal_processor.py`: the processor -/

/-- The value of `_extract_timezone`: the matched abbreviation and the text
with the matched phrase removed and stripped. -/
structure TzExtract where
  timezone : String
  cleaned_text : String
deriving DecidableEq

/-- City loop of `_extract_timezone`. -/
def extractCity : List (String × String) → String → Option TzExtract
  | [], _ => none
  | (city, tz) :: rest, text =>
    if (reSearch (cityRE city) text).isSome then
      some ⟨tz, pyStrip (reSubAll (cityRE city) "" text)⟩
    else extractCity rest text

/-- `_extract_timezone`: direct abbreviations first (uppercased capture), then
`"<city> time"` phrases; first match wins, matched phrases are removed. -/
def extract_timezone (text : String) : Option TzExtract :=
  match reSearch tzAbbrevRE text with
  | some m => some ⟨pyUpper ⟨m.cap.getD []⟩, pyStrip (reSubAll tzAbbrevRE "" text)⟩
  | none => extractCity city_to_tz text

/-- The `temporal_data` mapping: each field models the presence of the
like-named dict key (`timezone` and `timezone_context` are distinct keys). -/
structure TemporalData where
  due_date : Option String
  due_time : Option String
  reminder_date : Option String
  reminder_time : Option String
  timezone_context : Option String
  timezone : Option String
deriving DecidableEq

/-- The empty `temporal_data` dict. -/
def TemporalData.empty : TemporalData := ⟨none, none, none, none, none, none⟩

/-- Result of a custom idiom handler: the rewritten text and the idiom's
temporal fields. -/
structure CustomResult where
  processed_text : String
  temporal_data : TemporalData
deriving DecidableEq

/-- Python comparison of two (same-zone aware) datetimes. -/
def dtLe (a b : DateTime) : Bool :=
  if a.date.year ≠ b.date.year then a.date.year < b.date.year
  else if a.date.month ≠ b.date.month then a.date.month < b.date.month
  else if a.date.day ≠ b.date.day then a.date.day < b.date.day
  else a.hour * 60 + a.minute ≤ b.hour * 60 + b.minute

/-- `_handle_end_of_hour`: `HH:59` of the current hour, advanced one hour when
that is not strictly in the future (minute 59 itself rolls over). -/
def handle_end_of_hour (text : String) (reference_time : DateTime) : CustomResult :=
  let next_hour := { reference_time with minute := 59 }
  let next_hour := if dtLe next_hour reference_time then addMin next_hour 60 else next_hour
  { processed_text :=
      reSubAll endOfHourRE ("at " ++ pad2 next_hour.hour ++ ":59") text,
    temporal_data := { TemporalData.empty with
      due_date := some (renderDate next_hour.date),
      due_time := some (renderTime next_hour.hour next_hour.minute),
      reminder_date := some (renderDate next_hour.date),
      reminder_time := some (renderTime next_hour.hour next_hour.minute) } }

/-- `_handle_top_of_hour`: start of the next hour, strictly in the future. -/
def handle_top_of_hour (text : String) (reference_time : DateTime) : CustomResult :=
  let next_hour := { reference_time with minute := 0 }
  let next_hour := if dtLe next_hour reference_time then addMin next_hour 60 else next_hour
  { processed_text :=
      reSubAll topOfHourRE ("at " ++ pad2 next_hour.hour ++ ":00") text,
    temporal_data := { TemporalData.empty with
      due_date := some (renderDate next_hour.date),
      due_time := some (renderTime next_hour.hour next_hour.minute),
      reminder_date := some (renderDate next_hour.date),
      reminder_time := some (renderTime next_hour.hour next_hour.minute) } }

/-- `_handle_end_of_day`: `23:59` of the reference day. -/
def handle_end_of_day (text : String) (reference_time : DateTime) : CustomResult :=
  let end_of_day := { reference_time with hour := 23, minute := 59 }
  { processed_text := reSubAll endOfDayRE "at 23:59" text,
    temporal_data := { TemporalData.empty with
      due_date := some (renderDate end_of_day.date),
      due_time := some "23:59",
      reminder_date := some (renderDate end_of_day.date),
      reminder_time := some "23:59" } }

/-- `_handle_end_of_tonight`: same as end of day on the text with `"tonight"`
replaced by `"day"`. -/
def handle_end_of_tonight (text : String) (reference_time : DateTime) : CustomResult :=
  handle_end_of_day (pyReplace text "tonight" "day") reference_time

/-- `_handle_weekend`: target the next Saturday (same day if the reference is
a Saturday before noon, the next day if a Saturday at or after noon), set the
internal clock to 09:00, and record only the dates. -/
def handle_weekend (text : String) (reference_time : DateTime) : CustomResult :=
  let days_until_saturday : Int := ((5 : Int) - (weekdayPy reference_time.date : Int)) % 7
  let next_weekend :=
    if days_until_saturday = 0 then
      if 12 ≤ reference_time.hour then
        { reference_time with date := addDays reference_time.date 1 }
      else reference_time
    else { reference_time with date := addDays reference_time.date days_until_saturday }
  let next_weekend := { next_weekend with hour := 9, minute := 0 }
  { processed_text := reSubAll weekendRE ("on " ++ renderDate next_weekend.date) text,
    temporal_data := { TemporalData.empty with
      due_date := some (renderDate next_weekend.date),
      reminder_date := some (renderDate next_weekend.date) } }

/-- `self.custom_patterns` in insertion order. -/
def custom_patterns : List (RE × (String → DateTime → CustomResult)) :=
  [(endOfHourRE, handle_end_of_hour),
   (topOfHourRE, handle_top_of_hour),
   (endOfDayRE, handle_end_of_day),
   (endOfTonightRE, handle_end_of_tonight),
   (weekendRE, handle_weekend)]

/-- The idiom loop of `preprocess`: first pattern to match wins (the handlers
always return truthy dicts, so the loop returns on the first regex hit). -/
def runIdioms : List (RE × (String → DateTime → CustomResult)) → String → DateTime →
    Option CustomResult
  | [], _, _ => none
  | (pat, handler) :: rest, text, ref =>
    if (reSearch pat text).isSome then some (handler text ref)
    else runIdioms rest text ref

/-- The value of `_extract_time_parts`. -/
structure TimeParts where
  date_part : Option String
  time_part : Option String
  reminder_part : Option String
  task_part : String
deriving DecidableEq

/-- First pattern (in order) to match; yields `match.group(0)`. -/
def firstMatch : List RE → String → Option String
  | [], _ => none
  | p :: rest, text =>
    match reSearch p text with
    | some m => some ⟨m.matched⟩
    | none => firstMatch rest text

/-- First pattern (in order) to match; yields `match.group(1)` (every reminder
pattern has exactly one group on its mandatory path). -/
def firstGroup : List RE → String → Option String
  | [], _ => none
  | p :: rest, text =>
    match reSearch p text with
    | some m => some ⟨m.cap.getD m.matched⟩
    | none => firstGroup rest text

/-- `_extract_time_parts`. -/
def extract_time_parts (text : String) : TimeParts :=
  { date_part := firstMatch date_patterns text,
    time_part := firstMatch time_patterns text,
    reminder_part := firstGroup reminder_patterns text,
    task_part := text }

/-- The external `dateparser.parse(s, settings=...)` call, abstracted as an
oracle mapping the string and the relative base (`RELATIVE_BASE` =
reference time; the remaining settings are fixed) to an optional datetime. -/
def DateparserOracle := String → DateTime → Option DateTime

/-- `" ".join(...)`. -/
def joinSpace : List String → String
  | [] => ""
  | [s] => s
  | s :: rest => s ++ " " ++ joinSpace rest

/-- `_parse_with_dateparser`: parse the concatenated date and time spans for
the due fields; handle the reminder span, preferring the relative
`"N minutes before"` re-check (which subtracts from the parsed due datetime)
over an absolute parse; default the reminder to the due fields; attach any
extracted timezone under the `timezone_context` key; return `None` when the
dict stayed empty. -/
def parse_with_dateparser (dp : DateparserOracle) (time_parts : TimeParts)
    (reference_time : DateTime) (timezone : Option String) : Option TemporalData :=
  let datetime_str := joinSpace
    ((([time_parts.date_part, time_parts.time_part]).filterMap id).filter
      (fun s => s ≠ ""))
  let parsed_dt : Option DateTime :=
    if datetime_str ≠ "" then dp datetime_str reference_time else none
  let r1 : TemporalData :=
    match parsed_dt with
    | some pdt =>
      { TemporalData.empty with
        due_date := some (renderDate pdt.date),
        due_time :=
          if time_parts.time_part.isSome then some (renderTime pdt.hour pdt.minute)
          else none }
    | none => TemporalData.empty
  let r2 : TemporalData :=
    match time_parts.reminder_part with
    | none => r1
    | some rp =>
      match reSearch beforeMinutesRE rp, parsed_dt, time_parts.time_part with
      | some bm, some pdt, some _ =>
        let minutes := natFromDigits (bm.cap.getD [])
        let reminder_dt := addMin pdt (-(minutes : Int))
        { r1 with
          reminder_date := some (renderDate reminder_dt.date),
          reminder_time := some (renderTime reminder_dt.hour reminder_dt.minute) }
      | _, _, _ =>
        match dp rp reference_time with
        | some reminder_dt =>
          { r1 with
            reminder_time := some (renderTime reminder_dt.hour reminder_dt.minute),
            reminder_date := some (r1.due_date.getD (renderDate reminder_dt.date)) }
        | none => r1
  let r3 : TemporalData :=
    if r2.due_time.isSome && !r2.reminder_time.isSome then
      { r2 with reminder_time := r2.due_time, reminder_date := r2.due_date }
    else r2
  let r4 : TemporalData :=
    match timezone with
    | some tz => { r3 with timezone_context := some tz }
    | none => r3
  if r4 = TemporalData.empty then none else some r4

/-- `_build_processed_text`: drop the found date/time spans from the text and
append one bracketed canonical annotation. -/
def build_processed_text (original : String) (time_parts : TimeParts)
    (temporal_data : TemporalData) : String :=
  let replacements :=
    (match temporal_data.due_date with
     | some dd => ["on " ++ dd]
     | none => []) ++
    (match temporal_data.due_time with
     | some dt => ["at " ++ dt]
     | none => [])
  if replacements ≠ [] then
    let processed := original
    let processed :=
      match time_parts.date_part with
      | some part => pyStrip (pyReplace processed part "")
      | none => processed
    let processed :=
      match time_parts.time_part with
      | some part => pyStrip (pyReplace processed part "")
      | none => processed
    processed ++ " [" ++ joinSpace replacements ++ "]"
  else original

/-- The float literal `0.0` as an exact rational. -/
def q00 : ℚ := ⟨0, 1, by decide, by decide⟩

/-- The float literal `0.7` as an exact rational. -/
def q07 : ℚ := ⟨7, 10, by decide, by decide⟩

/-- The float literal `0.8` as an exact rational (in lowest terms). -/
def q08 : ℚ := ⟨4, 5, by decide, by decide⟩

/-- The float literal `0.9` as an exact rational. -/
def q09 : ℚ := ⟨9, 10, by decide, by decide⟩

/-- The result dict of `preprocess`. -/
structure PreResult where
  original_text : String
  processed_text : String
  temporal_data : TemporalData
  confidence : ℚ
deriving DecidableEq

/-- `preprocess(text, reference_time)`: extract and strip a timezone mention
(recorded under the `timezone` key), try the custom idiom patterns on the
stripped text (first match returns with confidence 0.9 and `temporal_data`
replaced wholesale by the handler's dict), otherwise run the generic
extraction and, on a successful parse, replace `temporal_data` by the parse
result with confidence 0.8 when it contains `reminder_time` and 0.7
otherwise; anything else leaves confidence 0.0. -/
def preprocess (dp : DateparserOracle) (text0 : String) (reference_time : DateTime) :
    PreResult :=
  let timezone_info := extract_timezone text0
  let text :=
    match timezone_info with
    | some i => i.cleaned_text
    | none => text0
  let result0 : PreResult :=
    { original_text := text0, processed_text := text0,
      temporal_data :=
        match timezone_info with
        | some i => { TemporalData.empty with timezone := some i.timezone }
        | none => TemporalData.empty,
      confidence := q00 }
  match runIdioms custom_patterns text reference_time with
  | some custom_result =>
    { result0 with
        processed_text := custom_result.processed_text,
        temporal_data := custom_result.temporal_data,
        confidence := q09 }
  | none =>
    let time_parts := extract_time_parts text
    if time_parts.date_part.isSome || time_parts.time_part.isSome then
      match parse_with_dateparser dp time_parts reference_time
          (match timezone_info with
           | some i => some i.timezone
           | none => none) with
      | some parsed_result =>
        { result0 with
            processed_text := build_processed_text text time_parts parsed_result,
            temporal_data := parsed_result,
            confidence := if parsed_result.reminder_time.isSome then q08 else q07 }
      | none => result0
    else result0

/-! ## Helper lemmas about the preprocessor -/

/-- The text `preprocess` hands to idiom and generic matching: the input with
any matched timezone phrase stripped. -/
def strippedText (text : String) : String :=
  match extract_timezone text with
  | some i => i.cleaned_text
  | none => text

/-- The `temporal_data` value before idiom/generic matching: just the
`timezone` key when one was extracted. -/
def tzData (text : String) : TemporalData :=
  match extract_timezone text with
  | some i => { TemporalData.empty with timezone := some i.timezone }
  | none => TemporalData.empty

theorem preprocess_cases (dp : DateparserOracle) (text : String) (ref : DateTime) :
    (∃ cr, runIdioms custom_patterns (strippedText text) ref = some cr ∧
      preprocess dp text ref
        = { original_text := text, processed_text := cr.processed_text,
            temporal_data := cr.temporal_data, confidence := q09 }) ∨
    (runIdioms custom_patterns (strippedText text) ref = none ∧
      ∃ parsed, parse_with_dateparser dp (extract_time_parts (strippedText text)) ref
            (match extract_timezone text with
             | some i => some i.timezone
             | none => none) = some parsed ∧
        ((extract_time_parts (strippedText text)).date_part.isSome
          || (extract_time_parts (strippedText text)).time_part.isSome) = true ∧
        preprocess dp text ref
          = { original_text := text,
              processed_text := build_processed_text (strippedText text)
                (extract_time_parts (strippedText text)) parsed,
              temporal_data := parsed,
              confidence := if parsed.reminder_time.isSome then q08 else q07 }) ∨
    (runIdioms custom_patterns (strippedText text) ref = none ∧
      (((extract_time_parts (strippedText text)).date_part.isSome
          || (extract_time_parts (strippedText text)).time_part.isSome) = false ∨
        parse_with_dateparser dp (extract_time_parts (strippedText text)) ref
          (match extract_timezone text with
           | some i => some i.timezone
           | none => none) = none) ∧
      preprocess dp text ref
        = { original_text := text, processed_text := text,
            temporal_data := tzData text, confidence := q00 }) := by
  simp only [preprocess, strippedText, tzData]
  cases hE : extract_timezone text <;> dsimp only
  case none =>
    cases hI : runIdioms custom_patterns text ref <;> dsimp only
    case some cr => exact Or.inl ⟨cr, rfl, rfl⟩
    case none =>
      cases hC : ((extract_time_parts text).date_part.isSome
          || (extract_time_parts text).time_part.isSome)
      case false =>
        refine Or.inr (Or.inr ⟨rfl, Or.inl rfl, ?_⟩)
        rw [if_neg (by simp)]
      case true =>
        rw [if_pos rfl]
        cases hP : parse_with_dateparser dp (extract_time_parts text) ref none <;> dsimp only
        case some parsed => exact Or.inr (Or.inl ⟨rfl, parsed, rfl, rfl, rfl⟩)
        case none => exact Or.inr (Or.inr ⟨rfl, Or.inr rfl, rfl⟩)
  case some i =>
    cases hI : runIdioms custom_patterns i.cleaned_text ref <;> dsimp only
    case some cr => exact Or.inl ⟨cr, rfl, rfl⟩
    case none =>
      cases hC : ((extract_time_parts i.cleaned_text).date_part.isSome
          || (extract_time_parts i.cleaned_text).time_part.isSome)
      case false =>
        refine Or.inr (Or.inr ⟨rfl, Or.inl rfl, ?_⟩)
        rw [if_neg (by simp)]
      case true =>
        rw [if_pos rfl]
        cases hP : parse_with_dateparser dp (extract_time_parts i.cleaned_text) ref
            (some i.timezone) <;> dsimp only
        case some parsed => exact Or.inr (Or.inl ⟨rfl, parsed, rfl, rfl, rfl⟩)
        case none => exact Or.inr (Or.inr ⟨rfl, Or.inr rfl, rfl⟩)

theorem runIdioms_data {text : String} {ref : DateTime} {cr : CustomResult}
    (h : runIdioms custom_patterns text ref = some cr) :
    cr.temporal_data.due_date.isSome = true ∧
    cr.temporal_data.timezone = none ∧
    cr.temporal_data.timezone_context = none := by
  simp only [custom_patterns, runIdioms] at h
  split at h
  · rw [Option.some_inj] at h
    subst h
    exact ⟨rfl, rfl, rfl⟩
  · split at h
    · rw [Option.some_inj] at h
      subst h
      exact ⟨rfl, rfl, rfl⟩
    · split at h
      · rw [Option.some_inj] at h
        subst h
        exact ⟨rfl, rfl, rfl⟩
      · split at h
        · rw [Option.some_inj] at h
          subst h
          exact ⟨rfl, rfl, rfl⟩
        · split at h
          · rw [Option.some_inj] at h
            subst h
            exact ⟨rfl, rfl, rfl⟩
          · exact absurd h (by simp)

theorem copy_due_reminder (r2 : TemporalData) :
    (if r2.due_time.isSome && !r2.reminder_time.isSome then
        { r2 with reminder_time := r2.due_time, reminder_date := r2.due_date }
      else r2).due_time.isSome = true →
    (if r2.due_time.isSome && !r2.reminder_time.isSome then
        { r2 with reminder_time := r2.due_time, reminder_date := r2.due_date }
      else r2).reminder_time.isSome = true := by
  split
  · intro h
    simpa using h
  · rename_i hcond
    intro h
    rcases Bool.eq_false_or_eq_true r2.reminder_time.isSome with hr | hr
    · exact hr
    · exact absurd (by simp [h, hr]) hcond

theorem gate_some {r4 td : TemporalData}
    (h : (if r4 = TemporalData.empty then none else some r4) = some td) :
    td = r4 ∧ r4 ≠ TemporalData.empty := by
  split at h
  · exact absurd h (by simp)
  · exact ⟨(Option.some_inj.mp h).symm, by assumption⟩

theorem parse_some_props {dp : DateparserOracle} {tp : TimeParts} {ref : DateTime}
    {tz : Option String} {td : TemporalData}
    (h : parse_with_dateparser dp tp ref tz = some td) :
    td ≠ TemporalData.empty ∧
    td.timezone = none ∧
    td.timezone_context = tz ∧
    (td.due_time.isSome = true → td.reminder_time.isSome = true) := by
  simp only [parse_with_dateparser] at h
  obtain ⟨htd, hne⟩ := gate_some h
  subst htd
  refine ⟨hne, ?_, ?_, ?_⟩
  · cases tz <;> dsimp only <;>
      repeat (first | rfl | split)
  · cases tz <;> dsimp only <;>
      repeat (first | rfl | split)
  · cases tz <;> dsimp only <;> exact copy_due_reminder _

theorem weekdayPy_lt (d : Date) : weekdayPy d < 7 := Nat.mod_lt _ (by norm_num)

/-- The weekend target date as the claim describes it: the coming Saturday
(an offset of `(5 - weekday) mod 7` days), rolling to the next day when the
reference is a Saturday at or after noon (boundary inclusive of noon), and
staying on the same day on a Saturday morning. -/
def weekendTarget (ref : DateTime) : Date :=
  if weekdayPy ref.date = 5 then
    (if 12 ≤ ref.hour then nextDay ref.date else ref.date)
  else addDays ref.date (((5 : Int) - (weekdayPy ref.date : Int)) % 7)

theorem handle_weekend_dates (text : String) (ref : DateTime) :
    (handle_weekend text ref).temporal_data.due_date
        = some (renderDate (weekendTarget ref)) ∧
    (handle_weekend text ref).temporal_data.reminder_date
        = some (renderDate (weekendTarget ref)) ∧
    (handle_weekend text ref).temporal_data.due_time = none := by
  have hW : weekdayPy ref.date < 7 := weekdayPy_lt ref.date
  by_cases h5 : weekdayPy ref.date = 5
  · have hz : ((5 : Int) - (weekdayPy ref.date : Int)) % 7 = 0 := by
      rw [h5]
      norm_num
    simp only [handle_weekend, weekendTarget, hz, h5, if_pos rfl]
    by_cases hh : 12 ≤ ref.hour
    · simp only [if_pos hh, addDays_one]
      refine ⟨?_, ?_, ?_⟩ <;> trivial
    · simp only [if_neg hh]
      refine ⟨?_, ?_, ?_⟩ <;> trivial
  · have hz : ((5 : Int) - (weekdayPy ref.date : Int)) % 7 ≠ 0 := by omega
    simp only [handle_weekend, weekendTarget, if_neg hz, if_neg h5]
    refine ⟨?_, ?_, ?_⟩ <;> trivial

/-- A dateparser oracle that parses nothing, and the fixed reference time
Thursday 2025-07-10 14:30 used by the spec's scenarios and the repository's
own test suite. -/
def dpNone : DateparserOracle := fun _ _ => none

/-- The spec's reference time: Thursday 2025-07-10, 14:30. -/
def refTime2025 : DateTime := ⟨⟨2025, 7, 10⟩, 14, 30⟩

/-- Spec scenario 1 input. -/
def c2Input : String := "Remind Joel tomorrow at 3pm to check batteries"

/-- Modelled from the spec: the external `dateparser` library (only its
callers live under src/) as pinned down by spec scenario 1 — the query
`"tomorrow at 3pm"` relative to Thursday 2025-07-10 14:30 resolves to
2025-07-11 15:00; every other query is treated as unparseable. -/
def dpSpecScenario1 : DateparserOracle := fun s _ =>
  if s = "tomorrow at 3pm" then some ⟨⟨2025, 7, 11⟩, 15, 0⟩ else none

/-! ## Claims about the temporal preprocessor -/

/-- C9: on any input whose timezone-stripped text matches the
`"(this )?weekend"` idiom and none of the earlier idioms, `preprocess` returns
confidence 0.9, records the weekend target date (computed at an internal
09:00 clock that is not emitted) as both `due_date` and `reminder_date`, and
records no `due_time`; the target is the coming Saturday, rolling to Sunday
when the reference time is a Saturday at or after noon (inclusive boundary)
and staying on the same day on a Saturday morning. -/
theorem c9_weekend_idiom (dp : DateparserOracle) (text : String) (ref : DateTime)
    (h1 : reSearch endOfHourRE (strippedText text) = none)
    (h2 : reSearch topOfHourRE (strippedText text) = none)
    (h3 : reSearch endOfDayRE (strippedText text) = none)
    (h4 : reSearch endOfTonightRE (strippedText text) = none)
    (h5 : (reSearch weekendRE (strippedText text)).isSome = true) :
    (preprocess dp text ref).confidence = q09 ∧
    (preprocess dp text ref).temporal_data.due_date
        = some (renderDate (weekendTarget ref)) ∧
    (preprocess dp text ref).temporal_data.reminder_date
        = some (renderDate (weekendTarget ref)) ∧
    (preprocess dp text ref).temporal_data.due_time = none ∧
    (weekdayPy ref.date = 5 → 12 ≤ ref.hour → weekendTarget ref = nextDay ref.date) ∧
    (weekdayPy ref.date = 5 → ref.hour < 12 → weekendTarget ref = ref.date) := by
  have hrun : runIdioms custom_patterns (strippedText text) ref
      = some (handle_weekend (strippedText text) ref) := by
    simp only [runIdioms, custom_patterns, h1, h2, h3, h4]
    simp [h5]
  obtain ⟨hd1, hd2, hd3⟩ := handle_weekend_dates (strippedText text) ref
  rcases preprocess_cases dp text ref with ⟨cr, hI, hEq⟩ | ⟨hI, _, _, _, hEq⟩ | ⟨hI, _, hEq⟩
  · rw [hrun, Option.some_inj] at hI
    subst hI
    rw [hEq]
    dsimp only
    refine ⟨rfl, hd1, hd2, hd3, ?_, ?_⟩
    · intro ha hb
      simp [weekendTarget, ha, hb]
    · intro ha hb
      have hb2 : ¬ 12 ≤ ref.hour := by omega
      simp [weekendTarget, ha, hb2]
  · rw [hrun] at hI
    exact absurd hI (by simp)
  · rw [hrun] at hI
    exact absurd hI (by simp)

/-- Witness for C9: the spec's concrete scenario — `"Do maintenance this
weekend"` at Thursday 2025-07-10 14:30 yields confidence 0.9 and due date
2025-07-12 (the following Saturday). -/
theorem c9_weekend_idiom_witness :
    (preprocess dpNone "Do maintenance this weekend" refTime2025).confidence = q09 ∧
    (preprocess dpNone "Do maintenance this weekend" refTime2025).temporal_data.due_date
      = some "2025-07-12" := by
  have h := c9_weekend_idiom dpNone "Do maintenance this weekend" refTime2025
    (by decide) (by decide) (by decide) (by decide) (by decide)
  exact ⟨h.1, h.2.1⟩

/-- C3 counterexample: the input `"CST"` extracts a timezone and nothing else,
yielding confidence 0.0 with a non-empty `temporal_data` (the abbreviation is
recorded under the `timezone` key), so "confidence == 0.0 iff temporal_data is
empty" fails right to left. -/
theorem c3_counterexample_timezone_only :
    (preprocess dpNone "CST" refTime2025).confidence = 0 ∧
    (preprocess dpNone "CST" refTime2025).temporal_data ≠ TemporalData.empty := by
  constructor
  · decide
  · decide

/-- C3 amended: confidence always lies in [0, 1] and an empty `temporal_data`
forces confidence 0.0, but confidence 0.0 only guarantees that every key other
than `timezone` is absent — a timezone-only extraction leaves confidence 0.0
with a non-empty mapping. -/
theorem c3_confidence_range (dp : DateparserOracle) (text : String) (ref : DateTime) :
    0 ≤ (preprocess dp text ref).confidence ∧
    (preprocess dp text ref).confidence ≤ 1 ∧
    ((preprocess dp text ref).temporal_data = TemporalData.empty →
      (preprocess dp text ref).confidence = 0) ∧
    ((preprocess dp text ref).confidence = 0 →
      (preprocess dp text ref).temporal_data.due_date = none ∧
      (preprocess dp text ref).temporal_data.due_time = none ∧
      (preprocess dp text ref).temporal_data.reminder_date = none ∧
      (preprocess dp text ref).temporal_data.reminder_time = none ∧
      (preprocess dp text ref).temporal_data.timezone_context = none) := by
  rcases preprocess_cases dp text ref with ⟨cr, hI, hEq⟩ | ⟨hI, parsed, hP, hC, hEq⟩ |
    ⟨hI, hor, hEq⟩
  · rw [hEq]
    dsimp only
    obtain ⟨hd, _, _⟩ := runIdioms_data hI
    refine ⟨by decide, by decide, ?_, ?_⟩
    · intro he
      rw [he] at hd
      exact absurd hd (by decide)
    · intro h0
      exact absurd h0 (by decide)
  · rw [hEq]
    dsimp only
    obtain ⟨hne, htz, htzc, hdr⟩ := parse_some_props hP
    refine ⟨?_, ?_, ?_, ?_⟩
    · split <;> decide
    · split <;> decide
    · intro he
      exact absurd he hne
    · intro h0
      split at h0 <;> exact absurd h0 (by decide)
  · rw [hEq]
    dsimp only
    refine ⟨by decide, by decide, fun _ => by decide, fun _ => ?_⟩
    unfold tzData
    cases extract_timezone text <;> exact ⟨rfl, rfl, rfl, rfl, rfl⟩

/-- Witness for the amended C3 at the repository's own no-temporal-expression
test input. -/
theorem c3_confidence_range_witness :
    (preprocess dpNone "Check the generator oil levels" refTime2025).temporal_data
        = TemporalData.empty ∧
    (preprocess dpNone "Check the generator oil levels" refTime2025).confidence = 0 :=
  ⟨by decide,
   (c3_confidence_range dpNone "Check the generator oil levels" refTime2025).2.2.1
     (by decide)⟩

/-- C2 counterexample: on spec scenario 1 (`"Remind Joel tomorrow at 3pm to
check batteries"`, no explicit reminder phrase) the code returns confidence
0.8 with `reminder_time` merely defaulted to `due_time`, refuting "0.8 only if
a distinct `reminder_time` different from `due_time` was also resolved". -/
theorem c2_counterexample_nondistinct_reminder :
    (preprocess dpSpecScenario1 c2Input refTime2025).confidence = q08 ∧
    (preprocess dpSpecScenario1 c2Input refTime2025).temporal_data.due_date
        = some "2025-07-11" ∧
    (preprocess dpSpecScenario1 c2Input refTime2025).temporal_data.due_time
        = some "15:00" ∧
    (preprocess dpSpecScenario1 c2Input refTime2025).temporal_data.reminder_time
        = some "15:00" ∧
    (preprocess dpSpecScenario1 c2Input refTime2025).temporal_data.reminder_time
        = (preprocess dpSpecScenario1 c2Input refTime2025).temporal_data.due_time := by
  refine ⟨?_, ?_, ?_, ?_, ?_⟩ <;> decide

/-- C2 amended: confidence is 0.9 exactly when a custom idiom matched the
timezone-stripped text; on the generic path confidence is 0.8 exactly when the
parse result carries a `reminder_time` key — which holds whenever `due_time`
was resolved, because the reminder defaults to the due time, so 0.8 does not
require a distinct reminder — and otherwise 0.7 or 0.0. -/
theorem c2_confidence_levels (dp : DateparserOracle) (text : String) (ref : DateTime) :
    ((preprocess dp text ref).confidence = q09 ↔
      (runIdioms custom_patterns (strippedText text) ref).isSome = true) ∧
    (runIdioms custom_patterns (strippedText text) ref = none →
      (((preprocess dp text ref).confidence = q08 ↔
          (preprocess dp text ref).temporal_data.reminder_time.isSome = true) ∧
        ((preprocess dp text ref).temporal_data.due_time.isSome = true →
          (preprocess dp text ref).confidence = q08) ∧
        ((preprocess dp text ref).confidence = q07 ∨
          (preprocess dp text ref).confidence = q08 ∨
          (preprocess dp text ref).confidence = 0))) := by
  rcases preprocess_cases dp text ref with ⟨cr, hI, hEq⟩ | ⟨hI, parsed, hP, hC, hEq⟩ |
    ⟨hI, hor, hEq⟩
  · rw [hEq]
    dsimp only
    constructor
    · constructor
      · intro _
        rw [hI]
        rfl
      · intro _
        rfl
    · intro h0
      rw [h0] at hI
      exact absurd hI (by simp)
  · rw [hEq]
    dsimp only
    obtain ⟨hne, htz, htzc, hdr⟩ := parse_some_props hP
    refine ⟨⟨?_, ?_⟩, ?_⟩
    · split <;> intro h <;> exact absurd h (by decide)
    · intro hs
      rw [hI] at hs
      exact absurd hs (by simp)
    · intro _
      refine ⟨⟨?_, ?_⟩, ?_, ?_⟩
      · intro h8
        rcases Bool.eq_false_or_eq_true parsed.reminder_time.isSome with hr | hr
        · exact hr
        · rw [if_neg (by simp [hr])] at h8
          exact absurd h8 (by decide)
      · intro hr
        rw [if_pos hr]
      · intro hdt
        rw [if_pos (hdr hdt)]
      · split
        · exact Or.inr (Or.inl rfl)
        · exact Or.inl rfl
  · rw [hEq]
    dsimp only
    constructor
    · constructor
      · intro h
        exact absurd h (by decide)
      · intro hs
        rw [hI] at hs
        exact absurd hs (by simp)
    · intro _
      refine ⟨⟨?_, ?_⟩, ?_, ?_⟩
      · intro h
        exact absurd h (by decide)
      · intro hr
        unfold tzData at hr
        rcases hx : extract_timezone text with _ | i <;> rw [hx] at hr <;>
          dsimp only at hr <;> exact absurd hr (by decide)
      · intro hdt
        unfold tzData at hdt
        rcases hx : extract_timezone text with _ | i <;> rw [hx] at hdt <;>
          dsimp only at hdt <;> exact absurd hdt (by decide)
      · exact Or.inr (Or.inr (by decide))

/-- Witness for the amended C2: scenario 1 resolves a due time and therefore
lands at confidence 0.8 through the default-reminder rule. -/
theorem c2_confidence_levels_witness :
    (preprocess dpSpecScenario1 c2Input refTime2025).temporal_data.due_time.isSome
        = true ∧
    (preprocess dpSpecScenario1 c2Input refTime2025).confidence = q08 := by
  have h := (c2_confidence_levels dpSpecScenario1 c2Input refTime2025).2 (by decide)
  exact ⟨by decide, h.2.1 (by decide)⟩

/-- C8 counterexample: `"Do maintenance this weekend CST"` has its `CST`
extracted and stripped, but the weekend idiom then replaces `temporal_data`
wholesale: the returned mapping holds neither a `timezone_context` key nor the
`timezone` key, refuting "temporal_data contains timezone_context ... —
including when a custom idiom pattern subsequently matches". -/
theorem c8_counterexample_idiom_drops_timezone :
    extract_timezone "Do maintenance this weekend CST"
        = some ⟨"CST", "Do maintenance this weekend"⟩ ∧
    (preprocess dpNone "Do maintenance this weekend CST" refTime2025).confidence = q09 ∧
    (preprocess dpNone "Do maintenance this weekend CST"
        refTime2025).temporal_data.timezone_context = none ∧
    (preprocess dpNone "Do maintenance this weekend CST"
        refTime2025).temporal_data.timezone = none := by
  refine ⟨?_, ?_, ?_, ?_⟩ <;> decide

/-- C8 amended: timezone extraction is attempted first and the matched phrase
is stripped from the text before idiom and generic matching, but the key under
which the abbreviation survives depends on the path taken: an idiom match
drops it entirely, a successful generic parse re-attaches it under
`timezone_context`, and otherwise it stays under the initial `timezone` key. -/
theorem c8_timezone_key_paths (dp : DateparserOracle) (text : String) (ref : DateTime)
    (i : TzExtract) (hE : extract_timezone text = some i) :
    ((∃ cr, runIdioms custom_patterns i.cleaned_text ref = some cr) →
      (preprocess dp text ref).temporal_data.timezone = none ∧
      (preprocess dp text ref).temporal_data.timezone_context = none) ∧
    (runIdioms custom_patterns i.cleaned_text ref = none →
      ((extract_time_parts i.cleaned_text).date_part.isSome
        || (extract_time_parts i.cleaned_text).time_part.isSome) = true →
      ∀ parsed, parse_with_dateparser dp (extract_time_parts i.cleaned_text) ref
          (some i.timezone) = some parsed →
        (preprocess dp text ref).temporal_data.timezone_context = some i.timezone ∧
        (preprocess dp text ref).temporal_data.timezone = none) ∧
    ((preprocess dp text ref).confidence = 0 →
      (preprocess dp text ref).temporal_data.timezone = some i.timezone ∧
      (preprocess dp text ref).temporal_data.timezone_context = none) := by
  have hs : strippedText text = i.cleaned_text := by
    simp [strippedText, hE]
  rcases preprocess_cases dp text ref with ⟨cr, hI, hEq⟩ | ⟨hI, parsed, hP, hC, hEq⟩ |
    ⟨hI, hor, hEq⟩
  · rw [hs] at hI
    obtain ⟨_, ht1, ht2⟩ := runIdioms_data hI
    refine ⟨?_, ?_, ?_⟩
    · intro _
      rw [hEq]
      exact ⟨ht1, ht2⟩
    · intro h0
      rw [h0] at hI
      exact absurd hI (by simp)
    · intro h0
      rw [hEq] at h0
      dsimp only at h0
      exact absurd h0 (by decide)
  · rw [hs] at hI hP hC
    rw [hE] at hP
    refine ⟨?_, ?_, ?_⟩
    · intro ⟨cr2, hcr2⟩
      rw [hI] at hcr2
      exact absurd hcr2 (by simp)
    · intro _ _ parsed2 hP2
      rw [hP2] at hP
      rw [Option.some_inj] at hP
      subst hP
      obtain ⟨_, htz, htzc, _⟩ := parse_some_props hP2
      rw [hEq]
      dsimp only
      exact ⟨htzc, htz⟩
    · intro h0
      rw [hEq] at h0
      dsimp only at h0
      split at h0 <;> exact absurd h0 (by decide)
  · rw [hs] at hI
    rw [hs, hE] at hor
    refine ⟨?_, ?_, ?_⟩
    · intro ⟨cr2, hcr2⟩
      rw [hI] at hcr2
      exact absurd hcr2 (by simp)
    · intro _ hC2 parsed2 hP2
      rcases hor with hfalse | hnone
      · rw [hC2] at hfalse
        exact absurd hfalse (by decide)
      · rw [hP2] at hnone
        exact absurd hnone (by simp)
    · intro _
      rw [hEq]
      dsimp only
      unfold tzData
      rw [hE]
      exact ⟨rfl, rfl⟩

/-- Witness for the amended C8 on the idiom path (`"Do maintenance this
weekend CST"`: timezone dropped) and on the nothing-matched path (`"CST"`:
timezone kept under the `timezone` key). -/
theorem c8_timezone_key_paths_witness :
    ((preprocess dpNone "Do maintenance this weekend CST"
        refTime2025).temporal_data.timezone = none ∧
      (preprocess dpNone "Do maintenance this weekend CST"
        refTime2025).temporal_data.timezone_context = none) ∧
    ((preprocess dpNone "CST" refTime2025).temporal_data.timezone = some "CST" ∧
      (preprocess dpNone "CST" refTime2025).temporal_data.timezone_context = none) := by
  constructor
  · exact (c8_timezone_key_paths dpNone "Do maintenance this weekend CST" refTime2025
      ⟨"CST", "Do maintenance this weekend"⟩ (by decide)).1 ⟨_, rfl⟩
  · exact (c8_timezone_key_paths dpNone "CST" refTime2025
      ⟨"CST", ""⟩ (by decide)).2.2 (by decide)

/-- The C1 input sentence (also the repository's `test_reminder_before`). -/
def c1Input : String := "Remind Joel 30 minutes before the 4pm meeting"

/-- The spans `_extract_time_parts` finds in the C1 input: the reminder span
captured by `remind\s+\w+\s+(?:at\s+)?(...)` is the bare digits `"30 "`. -/
def c1TimeParts : TimeParts := ⟨some "Joel 30", some "4pm", some "30 ", c1Input⟩

/-- The generic outcome of `_parse_with_dateparser` on the C1 input, written
to exhibit where each field comes from: the due fields from the oracle's
answer on `"Joel 30 4pm"` and the reminder fields from the oracle's answer on
the bare `"30 "` treated as an INDEPENDENT ABSOLUTE time (falling back to the
due values when that answer is empty) — never from subtracting 30 minutes. -/
def c1AbsoluteOutcome (main rem : Option DateTime) : TemporalData :=
  let r1 : TemporalData :=
    match main with
    | some pdt =>
      { TemporalData.empty with
        due_date := some (renderDate pdt.date),
        due_time := some (renderTime pdt.hour pdt.minute) }
    | none => TemporalData.empty
  let r2 : TemporalData :=
    match rem with
    | some reminder_dt =>
      { r1 with
        reminder_time := some (renderTime reminder_dt.hour reminder_dt.minute),
        reminder_date := some (r1.due_date.getD (renderDate reminder_dt.date)) }
    | none => r1
  if r2.due_time.isSome && !r2.reminder_time.isSome then
    { r2 with reminder_time := r2.due_time, reminder_date := r2.due_date }
  else r2

theorem c1_parse_eval (dp : DateparserOracle) (ref : DateTime) :
    parse_with_dateparser dp c1TimeParts ref none
      = (if c1AbsoluteOutcome (dp "Joel 30 4pm" ref) (dp "30 " ref) = TemporalData.empty
         then none
         else some (c1AbsoluteOutcome (dp "Joel 30 4pm" ref) (dp "30 " ref))) := rfl

/-- C1: the `"N minutes before"` reminder shape is never resolved relative to
the due time.  On the test input, `_extract_time_parts` captures only the
digit span `"30 "` as the reminder part, the `(\d+)\s*minutes?\s*before`
re-check inside `_parse_with_dateparser` therefore never matches, and for
every possible behaviour of the external dateparser the output's reminder
fields come from parsing `"30 "` as an independent absolute time — so the
code cannot produce `reminder_time = due_time - 30 minutes` as the claim (and
the repository's own test `test_reminder_before`) requires. -/
theorem c1_reminder_before_dead_branch (dp : DateparserOracle) (ref : DateTime) :
    (extract_time_parts c1Input).reminder_part = some "30 " ∧
    reSearch beforeMinutesRE "30 " = none ∧
    (preprocess dp c1Input ref).temporal_data
      = c1AbsoluteOutcome (dp "Joel 30 4pm" ref) (dp "30 " ref) := by
  refine ⟨by decide, by decide, ?_⟩
  have hidiom : runIdioms custom_patterns (strippedText c1Input) ref = none := rfl
  rcases preprocess_cases dp c1Input ref with ⟨cr, hI, hEq⟩ | ⟨hI, parsed, hP, hC, hEq⟩ |
    ⟨hI, hor, hEq⟩
  · rw [hidiom] at hI
    exact absurd hI (by simp)
  · have hP2 : parse_with_dateparser dp c1TimeParts ref none = some parsed := hP
    rw [c1_parse_eval dp ref] at hP2
    obtain ⟨hparsed, _⟩ := gate_some hP2
    rw [hEq]
    dsimp only
    exact hparsed
  · rcases hor with hfalse | hnone
    · have hfalse2 : (((c1TimeParts).date_part.isSome
          || (c1TimeParts).time_part.isSome) = false) := hfalse
      exact absurd hfalse2 (by decide)
    · have hnone2 : parse_with_dateparser dp c1TimeParts ref none = none := hnone
      rw [c1_parse_eval dp ref] at hnone2
      split at hnone2
      · rename_i hAe
        rw [hEq]
        dsimp only
        rw [hAe]
        decide
      · exact absurd hnone2 (by simp)

end GptParser
